import Mathlib

/-!
Verification development for the Aura Effects module (a virtual-tabletop
aura plugin).  The definitions below are a shallow embedding of the
source files `scripts/helpers.mjs` (geometry, predicate evaluation,
registry, scene delta calculator, best-of arbiter) and
`scripts/auras.mjs` (the lifecycle handlers).  JavaScript numbers are
modelled as rationals, `Infinity` by a dedicated extended-distance type,
host services (grid measurement, collision ray tests, script execution,
dice roll evaluation, uuid resolution, the quadtree spatial index) as
function-valued fields of a `Scene` record, and fallible dereferences as
`Option`/`Except`.
-/

namespace AuraEffects

/-- A 2D point (pixel coordinates). -/
structure Point2 where
  x : ℚ
  y : ℚ
deriving DecidableEq, Repr

/-- An elevated 3D point, as consumed by `getDistance`. -/
structure Point3 where
  x : ℚ
  y : ℚ
  elevation : ℚ
deriving DecidableEq, Repr

/-- A token position (x, y, elevation), as used for movement origins and
destinations. -/
structure TokenPos where
  x : ℚ
  y : ℚ
  elevation : ℚ
deriving DecidableEq, Repr

/-- An axis-aligned rectangle, as handed to the quadtree lookup. -/
structure Rect where
  x : ℚ
  y : ℚ
  w : ℚ
  h : ℚ
deriving DecidableEq, Repr

/-- JavaScript numeric distances: either a finite rational or `Infinity`.
All distance values produced by the module are of this shape. -/
inductive EDist where
  | fin (q : ℚ)
  | inf
deriving DecidableEq, Repr

namespace EDist

/-- JavaScript `Math.min` of two extended distances. -/
def min : EDist → EDist → EDist
  | fin a, fin b => fin (Min.min a b)
  | fin a, inf => fin a
  | inf, d => d

/-- JavaScript `Math.min(...list)`; the empty spread yields `Infinity`. -/
def minList (l : List EDist) : EDist :=
  l.foldr min inf

/-- Subtracting a finite rational from an extended distance
(`Infinity - q` is `Infinity` in JavaScript). -/
def sub (d : EDist) (q : ℚ) : EDist :=
  match d with
  | fin a => fin (a - q)
  | inf => inf

/-- The JavaScript comparison `r < d` for a finite radius `r` against an
extended distance `d` (any finite number is `< Infinity`). -/
def qlt (r : ℚ) : EDist → Bool
  | fin a => decide (r < a)
  | inf => true

/-- The JavaScript comparison `d <= r` for an extended distance `d`
against a finite radius `r` (`Infinity <= r` is false). -/
def leq (d : EDist) (r : ℚ) : Bool :=
  match d with
  | fin a => decide (a ≤ r)
  | inf => false

/-- Ordering proposition used in statements: `d < e`. -/
def lt : EDist → EDist → Prop
  | fin a, fin b => a < b
  | fin _, inf => True
  | inf, _ => False

instance (a b : EDist) : Decidable (lt a b) := by
  cases a <;> cases b <;> simp only [lt] <;> infer_instance

end EDist

/-- Derived roll-data snapshot of an actor; its contents are opaque to
the module, which only threads it into script and formula evaluation. -/
abbrev RollData := String

/-- The aura configuration carried by an aura-type active effect in its
`system` data (`AuraActiveEffectData`). -/
structure AuraSystem where
  script : Option String
  distance : ℚ
  disposition : Int
  collisionTypes : List String
  overrideName : String
  bestFormula : Option String
  applyToSelf : Bool
  disableOnHidden : Bool
deriving DecidableEq, Repr

/-- An active effect document.  `type` distinguishes aura source effects
(`"auraeffects.aura"`); `origin` and `fromAura` are the provenance data
of applied (child) effects; `parentActorUuid` is the uuid of the owning
actor when the parent is an actor; `modifiesActor` and `targetIsActor`
abstract the corresponding host-side checks in `addRemoveEffect`. -/
structure Effect where
  uuid : String
  name : String
  type : String
  disabled : Bool
  isSuppressed : Bool
  origin : Option String
  fromAura : Bool
  modifiesActor : Bool
  targetIsActor : Bool
  parentActorUuid : Option String
  system : AuraSystem
deriving DecidableEq, Repr

/-- An actor document.  `effects` is the embedded own-effects collection,
`appliedEffects` the currently applying effects, `allApplicableEffects`
the iterator used by `getAllAuraEffects` (includes item-inherited
effects); `rollData` is the result of `getRollData()`. -/
structure Actor where
  uuid : String
  name : String
  rollData : RollData
  effects : List Effect
  appliedEffects : List Effect
  allApplicableEffects : List Effect
deriving DecidableEq, Repr

/-- Movement state of a token document (`token.movement`). -/
structure Movement where
  state : String
  pending : Option ℚ
  destination : TokenPos
deriving DecidableEq, Repr

/-- A token document.  `center` is `token.object.center`; `centerPoint`
models `getCenterPoint(origin)` and `occupiedOffsets` models
`getOccupiedGridSpaceOffsets(origin)` (both host geometry queries,
parameterised by an optional movement-origin override); offsets are
identified with their 2D representatives, which the grid maps to centers. -/
structure TokenDoc where
  id : String
  actor : Option Actor
  disposition : Int
  x : ℚ
  y : ℚ
  elevation : ℚ
  width : ℚ
  hidden : Bool
  center : Point2
  centerPoint : Option TokenPos → Point2
  occupiedOffsets : Option TokenPos → List Point2
  externalRadius : ℚ
  movement : Movement

/-- The scene grid abstraction: gridless flag, pixel size, distance per
cell, offset-to-center conversion, and the path measurement
`measurePath([a, b]).distance`. -/
structure Grid where
  isGridless : Bool
  size : ℚ
  distance : ℚ
  getCenterPoint : Point2 → Point2
  measurePath : Point3 → Point3 → ℚ

/-- A scene together with the host services the module consumes:
collision ray tests (`CONFIG.Canvas.polygonBackends[t].testCollision`,
absent backends folded into a `false` result), script compilation (the
`Function(...)` constructor: `some e` is a raised `SyntaxError`, `none`
a successful compile), evaluation of the compiled script (the
`toEvaluate.call(...)` invocation, returning a boolean or raising), dice
formula evaluation (`new Roll(f, rollData).evaluateSync().total`),
synchronous uuid resolution (`fromUuidSync`) and the quadtree lookup of
the token layer. -/
structure Scene where
  grid : Grid
  tokens : List TokenDoc
  testCollision : String → Point3 → Point3 → Bool
  scriptCompile : String → Option String
  scriptEval : String → Actor → TokenDoc → TokenDoc → RollData → Except String Bool
  rollTotal : String → RollData → ℚ
  resolveEffect : String → Option Effect
  quadtree : Rect → List TokenDoc

/-- Uncaught exceptions that `executeScript` can raise: dereferencing a
missing candidate actor (`token.actor.getRollData()` before any guard),
or dereferencing a missing source actor inside the catch block
(`sourceToken.actor.name` while formatting the error log). -/
inductive ScriptFault where
  | candidateActorMissing
  | sourceActorMissingInCatch
deriving DecidableEq, Repr

/-- The data carried by the `console.error` call in the catch block of
`executeScript`: the emitting actor name, the effect name and the
underlying error. -/
structure LogEntry where
  sourceActorName : String
  effectName : String
  error : String
deriving DecidableEq, Repr

/-- `getDistance(scene, a, b, { collisionTypes })`: 3D distance in grid
units, `Infinity` if any listed collision type reports an obstruction. -/
def getDistance (scene : Scene) (a b : Point3) (collisionTypes : List String) : EDist :=
  if collisionTypes.any (fun ct => scene.testCollision ct a b) then .inf
  else .fin (scene.grid.measurePath a b)

/-- Elevation used for token A in `getTokenToTokenDistance`:
`origin.elevation ?? tokenA.elevation ?? 0` (elevation is always
present on our token model, so the `?? 0` default is never taken). -/
def originElevation (origin : Option TokenPos) (tokenA : TokenDoc) : ℚ :=
  match origin with
  | some o => o.elevation
  | none => tokenA.elevation

/-- `getTokenToTokenDistance(tokenA, tokenB, { origin, collisionTypes })`:
minimum 3D distance over the cross-product of occupied-cell centers
(gridless scenes use the single center point), minus the external-radius
correction on gridless scenes.  The scene is passed explicitly (the
source reads it from `tokenA.parent`). -/
def getTokenToTokenDistance (scene : Scene) (tokenA tokenB : TokenDoc)
    (origin : Option TokenPos) (collisionTypes : List String) : EDist :=
  let tokenAOffsets := if scene.grid.isGridless
    then [tokenA.centerPoint origin]
    else tokenA.occupiedOffsets origin
  let tokenBOffsets := if scene.grid.isGridless
    then [tokenB.centerPoint none]
    else tokenB.occupiedOffsets none
  let tokenAElevation := originElevation origin tokenA
  let tokenBElevation := tokenB.elevation
  let distances := tokenAOffsets.flatMap (fun offsetA =>
    tokenBOffsets.map (fun offsetB =>
      let ca := scene.grid.getCenterPoint offsetA
      let cb := scene.grid.getCenterPoint offsetB
      getDistance scene ⟨ca.x, ca.y, tokenAElevation⟩ ⟨cb.x, cb.y, tokenBElevation⟩
        collisionTypes))
  let externalAdjust := (scene.grid.distance / scene.grid.size) *
    (if scene.grid.isGridless then tokenA.externalRadius else 0)
  (EDist.minList distances).sub externalAdjust

/-- Whitespace trimming of a string (JavaScript `String.prototype.trim`),
implemented over the character list so that concrete instances evaluate
by kernel reduction. -/
def jsTrim (s : String) : String :=
  ⟨((s.data.dropWhile Char.isWhitespace).reverse.dropWhile Char.isWhitespace).reverse⟩

/-- The three ways one `executeScript` invocation can end: an uncaught
`TypeError` from an actor dereference, an uncaught `SyntaxError` from
the `Function(...)` compile (which runs before the `try` block), or a
returned value together with the log entry written if the call itself
raised and was caught. -/
inductive ScriptOutcome where
  | typeError (fault : ScriptFault)
  | syntaxError (error : String)
  | value (result : Bool) (log : Option LogEntry)
deriving DecidableEq, Repr

/-- `executeScript(sourceToken, token, effect)` with its exception
behaviour made explicit, in source statement order: the candidate actor
is dereferenced before any guard; an empty or whitespace-only script
short-circuits to `true`; the script is then compiled by the
`Function(...)` constructor OUTSIDE the `try` block, so a `SyntaxError`
propagates uncaught to the caller; only errors raised by calling the
compiled function are caught, logged (the logging dereferences the
source actor) and resolved fail-open to `true`. -/
def executeScript (scene : Scene) (sourceToken token : TokenDoc) (effect : Effect) :
    ScriptOutcome :=
  match token.actor with
  | none => .typeError .candidateActorMissing
  | some actor =>
    let rollData := actor.rollData
    let script := effect.system.script.getD ""
    if (jsTrim script).isEmpty then .value true none
    else match scene.scriptCompile script with
      | some e => .syntaxError e
      | none =>
        match scene.scriptEval script actor token sourceToken rollData with
        | .ok b => .value b none
        | .error err =>
          match sourceToken.actor with
          | none => .typeError .sourceActorMissingInCatch
          | some sourceActor => .value true (some ⟨sourceActor.name, effect.name, err⟩)

/-- The boolean an `executeScript` invocation returns when it returns at
all (blank script or successful compile; call-time errors are caught and
fold to `true`).  The uncaught throw paths — the compile `SyntaxError`
and the actor-dereference `TypeError`s — are modelled by
`executeScript`; at the call sites whose claims depend on the boolean
alone, candidates carry actors and the relevant hypotheses assume the
scripts compile. -/
def executeScriptB (scene : Scene) (sourceToken token : TokenDoc) (effect : Effect) : Bool :=
  match token.actor with
  | none => true
  | some actor =>
    let script := effect.system.script.getD ""
    if (jsTrim script).isEmpty then true
    else match scene.scriptEval script actor token sourceToken actor.rollData with
      | .ok b => b
      | .error _ => true

/-- When both tokens carry actors and the script compiles, the
exception-aware model returns, and its boolean is the projection used at
the call sites. -/
theorem executeScript_value (scene : Scene) (sourceToken token : TokenDoc) (effect : Effect)
    (a sa : Actor) (ha : token.actor = some a) (hsa : sourceToken.actor = some sa)
    (hc : scene.scriptCompile (effect.system.script.getD "") = none) :
    ∃ log, executeScript scene sourceToken token effect =
      .value (executeScriptB scene sourceToken token effect) log := by
  simp only [executeScript, executeScriptB, ha, hsa, hc]
  by_cases hs : ((jsTrim (effect.system.script.getD "")).isEmpty : Bool)
  · exact ⟨none, by simp [hs]⟩
  · simp only [hs, Bool.false_eq_true, if_false, ite_false]
    cases hev : scene.scriptEval (effect.system.script.getD "") a token sourceToken a.rollData with
    | ok b => exact ⟨none, rfl⟩
    | error err => exact ⟨some ⟨sa.name, effect.name, err⟩, rfl⟩

/-- `executeScript` viewed as a fallible computation at a call site: the
uncaught throw paths (`TypeError`, `SyntaxError`) surface as errors that
propagate through the calling handler; a caught call-time error has
already been folded fail-open into the returned boolean. -/
def execScriptM (scene : Scene) (sourceToken token : TokenDoc) (effect : Effect) :
    Except String Bool :=
  match executeScript scene sourceToken token effect with
  | .typeError _ => .error "TypeError"
  | .syntaxError e => .error e
  | .value b _ => .ok b

/-- On actor-bearing tokens with a compiling script, the fallible view
returns the call-site boolean. -/
theorem execScriptM_ok (scene : Scene) (sourceToken token : TokenDoc) (effect : Effect)
    (a sa : Actor) (ha : token.actor = some a) (hsa : sourceToken.actor = some sa)
    (hc : scene.scriptCompile (effect.system.script.getD "") = none) :
    execScriptM scene sourceToken token effect
      = Except.ok (executeScriptB scene sourceToken token effect) := by
  obtain ⟨log, hlog⟩ := executeScript_value scene sourceToken token effect a sa ha hsa hc
  simp [execScriptM, hlog]

/-- No uncaught script error anywhere on the scene: every script call
whose two tokens carry actors returns its call-site boolean.  Holds on
every scene whose scripts all compile (`scriptsTotal_of_compileFree`);
a compile-broken conditional script violates it and makes the calling
handler throw. -/
def ScriptsTotal (scene : Scene) : Prop :=
  ∀ sourceToken token : TokenDoc, ∀ effect : Effect, ∀ a sa : Actor,
    token.actor = some a → sourceToken.actor = some sa →
    execScriptM scene sourceToken token effect
      = Except.ok (executeScriptB scene sourceToken token effect)

/-- A scene on which every script compiles has no uncaught script
error. -/
theorem scriptsTotal_of_compileFree (scene : Scene)
    (hc : ∀ s, scene.scriptCompile s = none) : ScriptsTotal scene :=
  fun sourceToken token effect a sa ha hsa =>
    execScriptM_ok scene sourceToken token effect a sa ha hsa (hc _)

/-- `getGenerallyWithin(sourceToken, radius)`: quadtree lookup of a
bounding square of the radius (converted to pixels and expanded by half
the source footprint), a conservative candidate prefilter. -/
def getGenerallyWithin (scene : Scene) (sourceToken : TokenDoc) (radius : ℚ) : List TokenDoc :=
  let adjustedRadius := scene.grid.size * ((radius / scene.grid.distance) + sourceToken.width / 2)
  let center := sourceToken.center
  scene.quadtree ⟨center.x - adjustedRadius, center.y - adjustedRadius,
    2 * adjustedRadius, 2 * adjustedRadius⟩

/-- `getNearbyTokens(source, radius, { origin, disposition,
collisionTypes })`: prefilter, drop actorless tokens, apply the
disposition relationship filter, then keep tokens whose exact distance
is within the radius. -/
def getNearbyTokens (scene : Scene) (source : TokenDoc) (radius : ℚ)
    (origin : Option TokenPos) (disposition : Int) (collisionTypes : List String) :
    List TokenDoc :=
  let putativeTokens := (getGenerallyWithin scene source radius).filter (fun t =>
    match t.actor with
    | none => false
    | some _ =>
      if disposition < 0 then source.disposition * t.disposition == -1
      else if disposition > 0 then source.disposition == t.disposition
      else true)
  putativeTokens.filter (fun token =>
    (getTokenToTokenDistance scene source token origin collisionTypes).leq radius)

/-- JavaScript reference equality `tokenActor === actor` between a
possibly-null token actor and a known actor; documents are identified by
uuid (a shared actor document is the same object on every token). -/
def actorIs (a? : Option Actor) (actor : Actor) : Bool :=
  match a? with
  | none => false
  | some b => b.uuid == actor.uuid

/-- `getAllAuraEffects(actor)`: all aura-type effects applicable to the
actor, partitioned into (active, inactive) by disabled-or-suppressed
status.  A null actor yields two empty lists (after a console warning). -/
def getAllAuraEffects (a? : Option Actor) : List Effect × List Effect :=
  match a? with
  | none => ([], [])
  | some actor =>
    (actor.allApplicableEffects.filter (fun e => e.type == "auraeffects.aura")).partition
      (fun e => !e.disabled && !e.isSuppressed)

/-- The removal condition of a single active source aura against the
target token in the scene delta scan: radius exceeded
(`currEffect.system.distance < distance`) or conditional script
rejecting. -/
def auraFails (scene : Scene) (sourceToken token : TokenDoc) (currEffect : Effect) : Bool :=
  EDist.qlt currEffect.system.distance
    (getTokenToTokenDistance scene sourceToken token none currEffect.system.collisionTypes)
  || !executeScriptB scene sourceToken token currEffect

/-- One step of the `token.parent.tokens.reduce` fold in
`getChangingSceneAuras`: skip tokens sharing the target actor, queue
removals for applied effects originating from now-inactive auras of this
source, then for each active disposition-matching aura either queue the
currently applied copy for removal (on failure) or queue the source
effect for addition. -/
def gcsaStep (scene : Scene) (token : TokenDoc) (actor : Actor)
    (currentAppliedAuras : List Effect) (acc : List Effect × List Effect)
    (sourceToken : TokenDoc) : List Effect × List Effect :=
  if actorIs sourceToken.actor actor then acc else
  let disposition := token.disposition * sourceToken.disposition
  let auraPair := getAllAuraEffects sourceToken.actor
  let activeAuraEffects := auraPair.1
  let inactiveAuraEffects := auraPair.2
  let currentlyAppliedToRemove := currentAppliedAuras.filter (fun appliedEffect =>
    inactiveAuraEffects.any (fun inactiveEffect =>
      appliedEffect.origin == some inactiveEffect.uuid))
  let toRemove := if inactiveAuraEffects.isEmpty then acc.1
    else acc.1 ++ currentlyAppliedToRemove
  let auraEffects := activeAuraEffects.filter (fun e =>
    e.system.disposition == 0 || e.system.disposition == disposition)
  if auraEffects.isEmpty then (toRemove, acc.2) else
  auraEffects.foldl (fun acc2 currEffect =>
    if auraFails scene sourceToken token currEffect then
      match currentAppliedAuras.find? (fun e => e.origin == some currEffect.uuid) with
      | some currentlyApplied => (acc2.1 ++ [currentlyApplied], acc2.2)
      | none => acc2
    else (acc2.1, acc2.2 ++ [currEffect])) (toRemove, acc.2)

/-- The trailing safety net of `getChangingSceneAuras`: applied
aura-derived effects whose origin no longer resolves, or resolves to a
disabled or suppressed source effect. -/
def staleApplied (scene : Scene) (actor : Actor) : List Effect :=
  actor.appliedEffects.filter (fun effect =>
    effect.fromAura &&
    match effect.origin.bind scene.resolveEffect with
    | none => true
    | some sourceEffect => sourceEffect.disabled || sourceEffect.isSuppressed)

/-- `getChangingSceneAuras(token)` for a token whose actor has been
dereferenced: the (toRemove, toAdd) scene delta for the target. -/
def getChangingSceneAurasCore (scene : Scene) (token : TokenDoc) (actor : Actor) :
    List Effect × List Effect :=
  let currentAppliedAuras := actor.appliedEffects.filter (fun e => e.fromAura)
  let scan := scene.tokens.foldl (gcsaStep scene token actor currentAppliedAuras) ([], [])
  (scan.1 ++ staleApplied scene actor, scan.2)

/-- `getChangingSceneAuras(token)`; a token without an actor raises in
the source (`token.actor.appliedEffects`), modelled as `none`. -/
def getChangingSceneAuras (scene : Scene) (token : TokenDoc) :
    Option (List Effect × List Effect) :=
  token.actor.map (getChangingSceneAurasCore scene token)

/-- The per-source-effect body of `addRemoveEffect` (auras.mjs lines
44-61): candidates near the main token, those that should have the
effect, the actors to add to (filtering out actors already holding an
effect with this origin), and the stray copies to delete. -/
def addRemoveEffectPerSource (scene : Scene) (mainToken : TokenDoc) (sourceEffect : Effect) :
    List String × List Effect :=
  let radius := sourceEffect.system.distance
  let nearby := getNearbyTokens scene mainToken radius none sourceEffect.system.disposition
    sourceEffect.system.collisionTypes
  if nearby.isEmpty then ([], []) else
  let shouldHave := nearby.filter (fun t =>
    t.id != mainToken.id && executeScriptB scene mainToken t sourceEffect)
  let toAddTo := ((shouldHave.filterMap (fun t => t.actor)).filter (fun a =>
    (a.effects.find? (fun e => e.origin == some sourceEffect.uuid)).isNone)).map
    (fun a => a.uuid)
  let shouldNotHave := nearby.filter (fun t => !shouldHave.any (fun s => s.id == t.id))
  let toDelete := shouldNotHave.filterMap (fun t => t.actor.bind (fun a =>
    a.effects.find? (fun e => e.origin == some sourceEffect.uuid)))
  (toAddTo, toDelete)

/-- All aura-type effects applicable through a token (empty for
actorless tokens); `getAllAuraEffects` partitions this list. -/
def aurasOfToken (t : TokenDoc) : List Effect :=
  match t.actor with
  | none => []
  | some a => a.allApplicableEffects.filter (fun e => e.type == "auraeffects.aura")

/-- Modelled from the spec: the applied (child) effect the Mutation
Authority materialises on a target actor — a clone of the source effect
tagged with an origin back-reference (the source effect uuid) and the
aura-derived provenance flag.  (The query implementation, queries.mjs,
is not among the sources; the clone uuid is an arbitrary fresh
document id.) -/
def cloneEffect (targetActor : Actor) (src : Effect) : Effect :=
  { src with
    uuid := src.uuid ++ ":applied:" ++ targetActor.uuid
    origin := some src.uuid
    fromAura := true
    parentActorUuid := some targetActor.uuid }

/-- Modelled from the spec: applying a scene delta (toRemove, toAdd) to
the target actor — every toRemove applied effect is deleted from the
actor document (all collections), and every toAdd source effect is
cloned on. -/
def applyDeltaToActor (actor : Actor) (toRemove toAdd : List Effect) : Actor :=
  let removedUuids := toRemove.map (fun e => e.uuid)
  { actor with
    effects := actor.effects.filter (fun e => !removedUuids.contains e.uuid)
      ++ toAdd.map (cloneEffect actor)
    appliedEffects := actor.appliedEffects.filter (fun e => !removedUuids.contains e.uuid)
      ++ toAdd.map (cloneEffect actor)
    allApplicableEffects :=
      actor.allApplicableEffects.filter (fun e => !removedUuids.contains e.uuid)
      ++ toAdd.map (cloneEffect actor) }

/-- Replacing the target actor document by its mutated version on every
token that references it (the actor document is shared). -/
def updateTargetActor (scene : Scene) (actor newActor : Actor) : Scene :=
  { scene with tokens := scene.tokens.map (fun t =>
      if actorIs t.actor actor then { t with actor := some newActor } else t) }

/-- The world after computing the scene delta of a target token and
applying its own output: updated scene, updated target token and its
mutated actor. -/
def sceneDeltaApplied (scene : Scene) (tok : TokenDoc) (actor : Actor) :
    Scene × TokenDoc × Actor :=
  let delta := getChangingSceneAurasCore scene tok actor
  let newActor := applyDeltaToActor actor delta.1 delta.2
  (updateTargetActor scene actor newActor, { tok with actor := some newActor }, newActor)

/-- The removal contribution of a single source token in the scene delta
scan (the fold of `getChangingSceneAuras` only appends; this is what one
step appends to toRemove). -/
def stepRemovals (scene : Scene) (token : TokenDoc) (actor : Actor)
    (cur : List Effect) (st : TokenDoc) : List Effect :=
  if actorIs st.actor actor then [] else
  let ap := getAllAuraEffects st.actor
  let part1 := if ap.2.isEmpty then []
    else cur.filter (fun ae => ap.2.any (fun ie => ae.origin == some ie.uuid))
  let auraEffects := ap.1.filter (fun e =>
    e.system.disposition == 0 || e.system.disposition == token.disposition * st.disposition)
  part1 ++ auraEffects.filterMap (fun ce =>
    if auraFails scene st token ce then cur.find? (fun e => e.origin == some ce.uuid)
    else none)

/-- The addition contribution of a single source token in the scene
delta scan. -/
def stepAdds (scene : Scene) (token : TokenDoc) (actor : Actor) (st : TokenDoc) :
    List Effect :=
  if actorIs st.actor actor then [] else
  let auraEffects := (getAllAuraEffects st.actor).1.filter (fun e =>
    e.system.disposition == 0 || e.system.disposition == token.disposition * st.disposition)
  auraEffects.filter (fun ce => !auraFails scene st token ce)

/-- The inner per-effect loop of the scene delta scan only appends: its
result is the start accumulator extended by a filterMap (removals) and a
filter (additions). -/
theorem gcsaInner_foldl (scene : Scene) (st token : TokenDoc) (cur : List Effect)
    (l : List Effect) (r a : List Effect) :
    l.foldl (fun acc2 currEffect =>
      if auraFails scene st token currEffect then
        match cur.find? (fun e => e.origin == some currEffect.uuid) with
        | some currentlyApplied => (acc2.1 ++ [currentlyApplied], acc2.2)
        | none => acc2
      else (acc2.1, acc2.2 ++ [currEffect])) (r, a)
    = (r ++ l.filterMap (fun ce =>
        if auraFails scene st token ce then cur.find? (fun e => e.origin == some ce.uuid)
        else none),
       a ++ l.filter (fun ce => !auraFails scene st token ce)) := by
  induction l generalizing r a with
  | nil => simp
  | cons ce rest ih =>
    simp only [List.foldl_cons, List.filterMap_cons, List.filter_cons]
    by_cases hf : auraFails scene st token ce = true
    · simp only [hf, if_true, ite_true, Bool.not_true]
      cases hfind : cur.find? (fun e => e.origin == some ce.uuid) with
      | some ca => rw [ih]; simp
      | none => rw [ih]; simp
    · rw [Bool.not_eq_true] at hf
      simp only [hf, Bool.false_eq_true, if_false, ite_false, Bool.not_false, if_true, ite_true]
      rw [ih]
      simp

/-- One step of the scene delta fold appends exactly its removal and
addition contributions. -/
theorem gcsaStep_eq (scene : Scene) (token : TokenDoc) (actor : Actor) (cur : List Effect)
    (acc : List Effect × List Effect) (st : TokenDoc) :
    gcsaStep scene token actor cur acc st
    = (acc.1 ++ stepRemovals scene token actor cur st, acc.2 ++ stepAdds scene token actor st) := by
  simp only [gcsaStep, stepRemovals, stepAdds]
  by_cases hskip : actorIs st.actor actor = true
  · simp [hskip]
  · rw [Bool.not_eq_true] at hskip
    simp only [hskip, Bool.false_eq_true, if_false, ite_false]
    rw [gcsaInner_foldl]
    by_cases hin : (getAllAuraEffects st.actor).2.isEmpty = true
    · by_cases hae : ((getAllAuraEffects st.actor).1.filter (fun e =>
          e.system.disposition == 0 ||
          e.system.disposition == token.disposition * st.disposition)).isEmpty = true
      · rw [List.isEmpty_iff] at hae
        simp [hin, hae]
      · simp [hin, hae]
    · rw [Bool.not_eq_true] at hin
      by_cases hae : ((getAllAuraEffects st.actor).1.filter (fun e =>
          e.system.disposition == 0 ||
          e.system.disposition == token.disposition * st.disposition)).isEmpty = true
      · rw [List.isEmpty_iff] at hae
        simp [hin, hae]
      · simp [hin, hae, List.append_assoc]

/-- The scene delta fold over any token list is the start accumulator
extended by the concatenated per-source contributions. -/
theorem gcsa_foldl (scene : Scene) (token : TokenDoc) (actor : Actor) (cur : List Effect)
    (l : List TokenDoc) (r a : List Effect) :
    l.foldl (gcsaStep scene token actor cur) (r, a)
    = (r ++ l.flatMap (stepRemovals scene token actor cur),
       a ++ l.flatMap (stepAdds scene token actor)) := by
  induction l generalizing r a with
  | nil => simp
  | cons st rest ih =>
    simp only [List.foldl_cons, List.flatMap_cons]
    rw [gcsaStep_eq, ih]
    simp [List.append_assoc]

/-- Characterization of the scene delta calculator: toRemove is the
concatenation of per-source removal contributions followed by the stale
safety net; toAdd is the concatenation of per-source addition
contributions. -/
theorem getChangingSceneAurasCore_eq (scene : Scene) (tok : TokenDoc) (actor : Actor) :
    getChangingSceneAurasCore scene tok actor
    = (scene.tokens.flatMap (stepRemovals scene tok actor
        (actor.appliedEffects.filter (fun e => e.fromAura))) ++ staleApplied scene actor,
       scene.tokens.flatMap (stepAdds scene tok actor)) := by
  simp only [getChangingSceneAurasCore]
  rw [gcsa_foldl]
  simp

/-- The registry partition in terms of the aura-type effects of the
token: actives pass the not-disabled-and-not-suppressed filter and
inactives fail it. -/
theorem getAllAuraEffects_eq (t : TokenDoc) :
    getAllAuraEffects t.actor
    = ((aurasOfToken t).filter (fun e => !e.disabled && !e.isSuppressed),
       (aurasOfToken t).filter (fun e => !(!e.disabled && !e.isSuppressed))) := by
  cases h : t.actor <;>
    simp [getAllAuraEffects, aurasOfToken, h, List.partition_eq_filter_filter]

/-- Membership in a per-source addition contribution: the effect is an
aura of that source token, enabled, unsuppressed, passing distance and
predicate, and the source does not share the target actor. -/
theorem mem_stepAdds (scene : Scene) (token : TokenDoc) (actor : Actor) (st : TokenDoc)
    (e : Effect) (h : e ∈ stepAdds scene token actor st) :
    e ∈ aurasOfToken st ∧ (!e.disabled && !e.isSuppressed) = true ∧
    auraFails scene st token e = false ∧ actorIs st.actor actor = false := by
  simp only [stepAdds] at h
  by_cases hskip : actorIs st.actor actor = true
  · rw [if_pos hskip] at h
    cases h
  · rw [Bool.not_eq_true] at hskip
    rw [if_neg (by simp [hskip])] at h
    rw [getAllAuraEffects_eq] at h
    rw [List.mem_filter] at h
    obtain ⟨h1, hfail⟩ := h
    rw [List.mem_filter] at h1
    obtain ⟨h1, _⟩ := h1
    rw [List.mem_filter] at h1
    exact ⟨h1.1, h1.2, by simpa using hfail, hskip⟩

/-- Scene-wide uuid uniqueness of aura effects: two aura effects with
the same uuid reached through scene tokens are the same effect on the
same token. -/
theorem aura_uuid_unique (tokens : List TokenDoc)
    (h : ((tokens.flatMap aurasOfToken).map Effect.uuid).Nodup) :
    ∀ t1 ∈ tokens, ∀ t2 ∈ tokens, ∀ e1 ∈ aurasOfToken t1, ∀ e2 ∈ aurasOfToken t2,
      e1.uuid = e2.uuid → e1 = e2 ∧ t1 = t2 := by
  induction tokens with
  | nil => intro t1 h1; cases h1
  | cons t ts ih =>
    intro t1 h1 t2 h2 e1 he1 e2 he2 huuid
    rw [List.flatMap_cons, List.map_append, List.nodup_append] at h
    obtain ⟨hn1, hn2, hdisj⟩ := h
    rcases List.mem_cons.mp h1 with rfl | h1t
    · rcases List.mem_cons.mp h2 with rfl | h2t
      · exact ⟨List.inj_on_of_nodup_map hn1 he1 he2 huuid, rfl⟩
      · exfalso
        apply hdisj (List.mem_map_of_mem _ he1)
        rw [huuid]
        exact List.mem_map_of_mem _ (List.mem_flatMap.mpr ⟨t2, h2t, he2⟩)
    · rcases List.mem_cons.mp h2 with rfl | h2t
      · exfalso
        apply hdisj (List.mem_map_of_mem _ he2)
        rw [← huuid]
        exact List.mem_map_of_mem _ (List.mem_flatMap.mpr ⟨t1, h1t, he1⟩)
      · exact ih hn2 t1 h1t t2 h2t e1 he1 e2 he2 huuid

/-- Every element of a per-source removal or stale contribution is in
the computed toRemove list. -/
theorem mem_toRemove_of_stepRemovals (scene : Scene) (tok : TokenDoc) (actor : Actor)
    (st : TokenDoc) (hst : st ∈ scene.tokens) (x : Effect)
    (hx : x ∈ stepRemovals scene tok actor
      (actor.appliedEffects.filter (fun e => e.fromAura)) st) :
    x ∈ (getChangingSceneAurasCore scene tok actor).1 := by
  rw [getChangingSceneAurasCore_eq]
  exact List.mem_append_left _ (List.mem_flatMap.mpr ⟨st, hst, hx⟩)

/-- The stale safety net is contained in the computed toRemove list. -/
theorem mem_toRemove_of_stale (scene : Scene) (tok : TokenDoc) (actor : Actor) (x : Effect)
    (hx : x ∈ staleApplied scene actor) :
    x ∈ (getChangingSceneAurasCore scene tok actor).1 := by
  rw [getChangingSceneAurasCore_eq]
  exact List.mem_append_right _ hx

/-- Every toAdd element comes from the addition contribution of some
scene token. -/
theorem mem_toAdd_elim (scene : Scene) (tok : TokenDoc) (actor : Actor) (e : Effect)
    (he : e ∈ (getChangingSceneAurasCore scene tok actor).2) :
    ∃ t ∈ scene.tokens, e ∈ stepAdds scene tok actor t := by
  rw [getChangingSceneAurasCore_eq] at he
  exact List.mem_flatMap.mp he

/-- The mutated target actor after the scene delta application. -/
def deltaActor (scene : Scene) (tok : TokenDoc) (actor : Actor) : Actor :=
  applyDeltaToActor actor (getChangingSceneAurasCore scene tok actor).1
    (getChangingSceneAurasCore scene tok actor).2

/-- The target token referencing the mutated actor. -/
def deltaToken (scene : Scene) (tok : TokenDoc) (actor : Actor) : TokenDoc :=
  { tok with actor := some (deltaActor scene tok actor) }

/-- The scene after the scene delta application. -/
def deltaScene (scene : Scene) (tok : TokenDoc) (actor : Actor) : Scene :=
  updateTargetActor scene actor (deltaActor scene tok actor)

/-- The packaged delta-application world is the triple of the three
components above. -/
theorem sceneDeltaApplied_eq (scene : Scene) (tok : TokenDoc) (actor : Actor) :
    sceneDeltaApplied scene tok actor
      = (deltaScene scene tok actor, deltaToken scene tok actor, deltaActor scene tok actor) :=
  rfl

/-- Script outcomes against the mutated target coincide with those
against the original target whenever script evaluation does not observe
the mutated state (hypothesis h4). -/
theorem executeScriptB_delta (scene : Scene) (tok : TokenDoc) (actor : Actor)
    (h1 : tok.actor = some actor)
    (h4 : ∀ s st rd, scene.scriptEval s (deltaActor scene tok actor)
      (deltaToken scene tok actor) st rd = scene.scriptEval s actor tok st rd)
    (st : TokenDoc) (ce : Effect) :
    executeScriptB (deltaScene scene tok actor) st (deltaToken scene tok actor) ce
      = executeScriptB scene st tok ce := by
  have hs : (deltaScene scene tok actor).scriptEval = scene.scriptEval := rfl
  have hta : (deltaToken scene tok actor).actor = some (deltaActor scene tok actor) := rfl
  have hrd : (deltaActor scene tok actor).rollData = actor.rollData := rfl
  simp only [executeScriptB, hta, h1, hs, hrd]
  by_cases hempty : ((jsTrim (ce.system.script.getD "")).isEmpty : Bool)
  · simp [hempty]
  · simp only [hempty, Bool.false_eq_true, if_false, ite_false]
    rw [h4]

/-- Distance-or-predicate failure against the mutated target coincides
with the original (distances depend only on unchanged geometry). -/
theorem auraFails_delta (scene : Scene) (tok : TokenDoc) (actor : Actor)
    (h1 : tok.actor = some actor)
    (h4 : ∀ s st rd, scene.scriptEval s (deltaActor scene tok actor)
      (deltaToken scene tok actor) st rd = scene.scriptEval s actor tok st rd)
    (st : TokenDoc) (ce : Effect) :
    auraFails (deltaScene scene tok actor) st (deltaToken scene tok actor) ce
      = auraFails scene st tok ce := by
  have hd : getTokenToTokenDistance (deltaScene scene tok actor) st
      (deltaToken scene tok actor) none ce.system.collisionTypes
      = getTokenToTokenDistance scene st tok none ce.system.collisionTypes := rfl
  simp only [auraFails, hd, executeScriptB_delta scene tok actor h1 h4 st ce]

/-- The addition contribution of each (possibly updated) source token in
the re-run equals its contribution in the first run. -/
theorem stepAdds_delta (scene : Scene) (tok : TokenDoc) (actor : Actor)
    (h1 : tok.actor = some actor)
    (h4 : ∀ s st rd, scene.scriptEval s (deltaActor scene tok actor)
      (deltaToken scene tok actor) st rd = scene.scriptEval s actor tok st rd)
    (st : TokenDoc) :
    stepAdds (deltaScene scene tok actor) (deltaToken scene tok actor)
      (deltaActor scene tok actor)
      (if actorIs st.actor actor then { st with actor := some (deltaActor scene tok actor) }
        else st)
    = stepAdds scene tok actor st := by
  by_cases hskip : actorIs st.actor actor = true
  · rw [if_pos hskip]
    have hl : actorIs (some (deltaActor scene tok actor)) (deltaActor scene tok actor)
        = true := by
      simp [actorIs]
    simp only [stepAdds]
    rw [if_pos hl, if_pos hskip]
  · rw [Bool.not_eq_true] at hskip
    rw [if_neg (by simp [hskip])]
    have hA : actorIs st.actor (deltaActor scene tok actor) = actorIs st.actor actor := rfl
    have hd : (deltaToken scene tok actor).disposition = tok.disposition := rfl
    simp only [stepAdds, hA, hd, hskip, Bool.false_eq_true, if_false, ite_false,
      auraFails_delta scene tok actor h1 h4 st]

/-- The resolved display name of an aura effect
(`e.system.overrideName.trim() || e.name`). -/
def resolvedName (e : Effect) : String :=
  if (jsTrim e.system.overrideName).isEmpty then e.name else jsTrim e.system.overrideName

/-- `actor.getActiveTokens(false, true)`: the scene tokens referencing
the actor document (identified by uuid; applied effects always live on
actors, so a missing parent yields no tokens). -/
def getActiveTokens (scene : Scene) (actorUuid : Option String) : List TokenDoc :=
  scene.tokens.filter (fun t =>
    match t.actor, actorUuid with
    | some a, some u => a.uuid == u
    | _, _ => false)

/-- JavaScript `acc[k] ??= []; acc[k].push(...vs)` on a string-keyed
object, modelled as an association list in key-insertion order. -/
def pushAssoc {β : Type} (m : List (String × List β)) (k : String) (vs : List β) :
    List (String × List β) :=
  match m with
  | [] => [(k, vs)]
  | (k0, v0) :: rest =>
    if k0 == k then (k0, v0 ++ vs) :: rest else (k0, v0) :: pushAssoc rest k vs

/-- The effect-name to removed-from-tokens map built by
`removeAndReplaceAuras` (keyed by the removed applied effect name; each
effect contributes the active tokens of its parent actor). -/
def effectToRemovedMap (scene : Scene) (effects : List Effect) :
    List (String × List TokenDoc) :=
  effects.foldl (fun acc effect =>
    pushAssoc acc effect.name (getActiveTokens scene effect.parentActorUuid)) []

/-- `getSourceEffect(token, effectName)`: the first aura-type applied
effect of the token actor whose resolved name matches. -/
def getSourceEffect (token : TokenDoc) (effectName : String) : Option Effect :=
  match token.actor with
  | none => none
  | some a => a.appliedEffects.find? (fun e =>
      e.type == "auraeffects.aura" && resolvedName e == effectName)

/-- Roll data of a token actor (emitting tokens always carry actors; the
JavaScript code would throw on a missing one). -/
def rollDataOf (t : TokenDoc) : RollData :=
  match t.actor with
  | none => ""
  | some a => a.rollData

/-- The sort comparator of the best-of arbiter: emitters without a
source effect sort last, then emitters whose effect has no best formula,
then by descending evaluated formula total. -/
def bestCmp (scene : Scene) (effectName : String) (a b : TokenDoc) : ℚ :=
  match getSourceEffect a effectName with
  | none => 1
  | some effectA =>
    match getSourceEffect b effectName with
    | none => -1
    | some effectB =>
      let bestFormulaA := jsTrim (effectA.system.bestFormula.getD "")
      let bestFormulaB := jsTrim (effectB.system.bestFormula.getD "")
      if bestFormulaA.isEmpty then 1
      else if bestFormulaB.isEmpty then -1
      else scene.rollTotal bestFormulaB (rollDataOf b)
        - scene.rollTotal bestFormulaA (rollDataOf a)

/-- Stable insertion of an element into a comparator-sorted list: the
element goes before the first entry it compares strictly below. -/
def insertCmp {α : Type} (cmp : α → α → ℚ) (x : α) : List α → List α
  | [] => [x]
  | y :: ys => if cmp x y < 0 then x :: y :: ys else y :: insertCmp cmp x ys

/-- Stable sort by a JavaScript-style comparator (`Array.prototype.sort`
is stable; any stable sort agrees with this insertion sort on a
consistent comparator). -/
def sortByCmp {α : Type} (cmp : α → α → ℚ) (l : List α) : List α :=
  l.foldl (fun acc x => insertCmp cmp x acc) []

/-- All scene tokens currently emitting an active source aura of the
given resolved name. -/
def allEmitting (scene : Scene) (effectName : String) : List TokenDoc :=
  scene.tokens.filter (fun t =>
    (getAllAuraEffects t.actor).1.any (fun e => resolvedName e == effectName))

/-- The walk of the sorted emitter list for one losing target token:
the first emitter whose aura satisfies distance, predicate and
apply-to-self constraints supplies the replacement effect uuid. -/
def replacementFor (scene : Scene) (sorted : List TokenDoc) (effectName : String)
    (targetToken : TokenDoc) : Option String :=
  sorted.findSome? (fun sourceToken =>
    match getSourceEffect sourceToken effectName with
    | none => none
    | some effect =>
      let distance := getTokenToTokenDistance scene sourceToken targetToken none
        effect.system.collisionTypes
      if EDist.qlt effect.system.distance distance
          || !executeScriptB scene sourceToken targetToken effect
          || (!effect.system.applyToSelf && sourceToken.id == targetToken.id) then none
      else some effect.uuid)

/-- `removeAndReplaceAuras(effects, scene)`: the uuids deleted through
the Mutation Authority and the best-of replacement apply map (target
actor uuid to replacement source effect uuids).  The scene is read as of
the time of the best-of search (after the deletions resolve). -/
def removeAndReplaceAuras (scene : Scene) (effects : List Effect) :
    List String × List (String × List String) :=
  let groups := effectToRemovedMap scene effects
  let deletedUuids := effects.map (fun e => e.uuid)
  let applyMap := groups.foldl (fun acc g =>
    let sorted := sortByCmp (bestCmp scene g.1) (allEmitting scene g.1)
    g.2.foldl (fun acc2 targetToken =>
      match replacementFor scene sorted g.1 targetToken with
      | none => acc2
      | some effUuid =>
        match targetToken.actor with
        | none => acc2
        | some a => pushAssoc acc2 a.uuid [effUuid]) acc) []
  (deletedUuids, applyMap)

/-- The tie-break score realised by the comparator: no source effect is
bottom, an effect without best formula is next, effects with formulas
compare by evaluated total. -/
def bestScore (scene : Scene) (effectName : String) (t : TokenDoc) : WithBot (WithBot ℚ) :=
  match getSourceEffect t effectName with
  | none => ⊥
  | some eff =>
    if (jsTrim (eff.system.bestFormula.getD "")).isEmpty then ((⊥ : WithBot ℚ) : WithBot (WithBot ℚ))
    else ((((scene.rollTotal (jsTrim (eff.system.bestFormula.getD "")) (rollDataOf t)) : ℚ) : WithBot ℚ) : WithBot (WithBot ℚ))

/-- The comparator orders strictly below zero exactly when the realised
score of the second emitter is strictly below that of the first. -/
theorem bestCmp_lt_iff (scene : Scene) (effectName : String) (a b : TokenDoc) :
    bestCmp scene effectName a b < 0 ↔
      bestScore scene effectName b < bestScore scene effectName a := by
  unfold bestCmp bestScore
  cases ha : getSourceEffect a effectName with
  | none =>
    cases hb : getSourceEffect b effectName with
    | none => norm_num
    | some eb =>
      by_cases hfb : ((jsTrim (eb.system.bestFormula.getD "")).isEmpty : Bool) <;>
        simp [hfb]
  | some ea =>
    cases hb : getSourceEffect b effectName with
    | none =>
      by_cases hfa : ((jsTrim (ea.system.bestFormula.getD "")).isEmpty : Bool) <;>
        simp [hfa, WithBot.bot_lt_coe]
    | some eb =>
      by_cases hfa : ((jsTrim (ea.system.bestFormula.getD "")).isEmpty : Bool) <;>
        by_cases hfb : ((jsTrim (eb.system.bestFormula.getD "")).isEmpty : Bool) <;>
        simp [hfa, hfb, WithBot.coe_lt_coe, WithBot.bot_lt_coe, sub_neg]

/-- Membership in an insertion. -/
theorem mem_insertCmp {α : Type} (cmp : α → α → ℚ) (x : α) (l : List α) (z : α) :
    z ∈ insertCmp cmp x l ↔ z = x ∨ z ∈ l := by
  induction l with
  | nil => simp [insertCmp]
  | cons y ys ih =>
    simp only [insertCmp]
    by_cases h : cmp x y < 0
    · rw [if_pos h]
      simp [List.mem_cons]
    · rw [if_neg h]
      simp only [List.mem_cons, ih]
      tauto

/-- Inserting into a score-sorted list keeps it score-sorted. -/
theorem insertCmp_pairwise (scene : Scene) (name : String) (x : TokenDoc)
    (l : List TokenDoc)
    (h : l.Pairwise (fun u v => bestScore scene name v ≤ bestScore scene name u)) :
    (insertCmp (bestCmp scene name) x l).Pairwise
      (fun u v => bestScore scene name v ≤ bestScore scene name u) := by
  induction l with
  | nil => simp [insertCmp]
  | cons y ys ih =>
    rw [List.pairwise_cons] at h
    obtain ⟨hy, hys⟩ := h
    simp only [insertCmp]
    by_cases hc : bestCmp scene name x y < 0
    · rw [if_pos hc]
      rw [bestCmp_lt_iff] at hc
      rw [List.pairwise_cons]
      refine ⟨?_, List.pairwise_cons.mpr ⟨hy, hys⟩⟩
      intro z hz
      rcases List.mem_cons.mp hz with rfl | hz2
      · exact le_of_lt hc
      · exact le_trans (hy z hz2) (le_of_lt hc)
    · rw [if_neg hc]
      rw [bestCmp_lt_iff, not_lt] at hc
      rw [List.pairwise_cons]
      refine ⟨?_, ih hys⟩
      intro z hz
      rcases (mem_insertCmp _ x ys z).mp hz with rfl | hz2
      · exact hc
      · exact hy z hz2

/-- The insertion-sort fold keeps the accumulator score-sorted. -/
theorem sortAux_pairwise (scene : Scene) (name : String) (l : List TokenDoc)
    (acc : List TokenDoc)
    (hacc : acc.Pairwise (fun u v => bestScore scene name v ≤ bestScore scene name u)) :
    (l.foldl (fun acc x => insertCmp (bestCmp scene name) x acc) acc).Pairwise
      (fun u v => bestScore scene name v ≤ bestScore scene name u) := by
  induction l generalizing acc with
  | nil => exact hacc
  | cons x xs ih => exact ih _ (insertCmp_pairwise scene name x acc hacc)

/-- The sorted emitter list is score-sorted: descending evaluated
totals, formula-less effects after formula-bearing ones, missing effects
last. -/
theorem sortByCmp_pairwise (scene : Scene) (name : String) (l : List TokenDoc) :
    (sortByCmp (bestCmp scene name) l).Pairwise
      (fun u v => bestScore scene name v ≤ bestScore scene name u) :=
  sortAux_pairwise scene name l [] List.Pairwise.nil

/-- Insertion permutes to consing. -/
theorem insertCmp_perm {α : Type} (cmp : α → α → ℚ) (x : α) (l : List α) :
    (insertCmp cmp x l).Perm (x :: l) := by
  induction l with
  | nil => exact List.Perm.refl _
  | cons y ys ih =>
    simp only [insertCmp]
    by_cases h : cmp x y < 0
    · rw [if_pos h]
    · rw [if_neg h]
      exact (ih.cons y).trans (List.Perm.swap x y ys)

/-- The insertion-sort fold permutes to appending. -/
theorem sortAux_perm {α : Type} (cmp : α → α → ℚ) (l acc : List α) :
    (l.foldl (fun acc x => insertCmp cmp x acc) acc).Perm (l ++ acc) := by
  induction l generalizing acc with
  | nil => exact List.Perm.refl _
  | cons x xs ih =>
    refine (ih (insertCmp cmp x acc)).trans ?_
    refine (List.Perm.append_left xs (insertCmp_perm cmp x acc)).trans ?_
    exact List.perm_middle

/-- The sorted emitter list is a permutation of the discovered one. -/
theorem sortByCmp_perm {α : Type} (cmp : α → α → ℚ) (l : List α) :
    (sortByCmp cmp l).Perm l := by
  have h := sortAux_perm cmp l []
  simpa using h

/-- Sorting a list extended on the right inserts the new element into
the sorted prefix. -/
theorem sortByCmp_append_last {α : Type} (cmp : α → α → ℚ) (l : List α) (x : α) :
    sortByCmp cmp (l ++ [x]) = insertCmp cmp x (sortByCmp cmp l) := by
  simp [sortByCmp, List.foldl_append]

/-- A list is a sublist of any insertion into it. -/
theorem sublist_insertCmp {α : Type} (cmp : α → α → ℚ) (x : α) (l : List α) :
    l.Sublist (insertCmp cmp x l) := by
  induction l with
  | nil => simp [insertCmp]
  | cons y ys ih =>
    simp only [insertCmp]
    by_cases h : cmp x y < 0
    · rw [if_pos h]
      exact List.sublist_cons_self x (y :: ys)
    · rw [if_neg h]
      exact List.Sublist.cons₂ y ih

/-- An element whose score is not below the inserted one stays before
it (the insertion point of a stable sort). -/
theorem insertCmp_after (scene : Scene) (name : String) (x a : TokenDoc)
    (l : List TokenDoc)
    (hl : l.Pairwise (fun u v => bestScore scene name v ≤ bestScore scene name u))
    (ha : a ∈ l) (hscore : ¬ bestScore scene name a < bestScore scene name x) :
    [a, x].Sublist (insertCmp (bestCmp scene name) x l) := by
  induction l with
  | nil => cases ha
  | cons y ys ih =>
    rw [List.pairwise_cons] at hl
    obtain ⟨hy, hys⟩ := hl
    simp only [insertCmp]
    by_cases hc : bestCmp scene name x y < 0
    · exfalso
      rw [bestCmp_lt_iff] at hc
      rcases List.mem_cons.mp ha with rfl | ha2
      · exact hscore hc
      · exact hscore (lt_of_le_of_lt (hy a ha2) hc)
    · rw [if_neg hc]
      rcases List.mem_cons.mp ha with rfl | ha2
      · apply List.Sublist.cons₂
        rw [List.singleton_sublist, mem_insertCmp]
        exact Or.inl rfl
      · exact List.Sublist.cons y (ih hys ha2)

/-- Stability of the sort: a pair in discovery order whose first member
does not score strictly below the second keeps its relative order. -/
theorem sortByCmp_stable (scene : Scene) (name : String) (l : List TokenDoc)
    (a b : TokenDoc) (hab : [a, b].Sublist l)
    (hscore : ¬ bestScore scene name a < bestScore scene name b) :
    [a, b].Sublist (sortByCmp (bestCmp scene name) l) := by
  induction l using List.reverseRecOn with
  | nil => cases (List.sublist_nil.mp hab)
  | append_singleton l x ihl =>
    rw [sortByCmp_append_last]
    rcases List.sublist_append_iff.mp hab with ⟨l1, l2, heq, h1, h2⟩
    cases h2 with
    | cons _ h2' =>
      have hl2 : l2 = [] := List.sublist_nil.mp h2'
      rw [hl2, List.append_nil] at heq
      rw [← heq] at h1
      exact (ihl h1).trans (sublist_insertCmp _ x _)
    | cons₂ _ h2' =>
      have hnil : _ = ([] : List TokenDoc) := List.sublist_nil.mp h2'
      rw [hnil] at heq
      match l1, heq with
      | [], heq => simp at heq
      | [c], heq =>
        rw [List.cons_append, List.nil_append] at heq
        have hac : a = c ∧ b = x := by
          have h1' := List.cons.inj heq
          have h2' := List.cons.inj h1'.2
          exact ⟨h1'.1, h2'.1⟩
        obtain ⟨rfl, rfl⟩ := (by exact hac : a = c ∧ b = x)
        have hmem : a ∈ sortByCmp (bestCmp scene name) l := by
          rw [(sortByCmp_perm (bestCmp scene name) l).mem_iff]
          exact List.singleton_sublist.mp h1
        exact insertCmp_after scene name b a _ (sortByCmp_pairwise scene name l) hmem hscore
      | c :: d :: ds, heq =>
        rw [List.cons_append, List.cons_append] at heq
        have h1' := List.cons.inj heq
        have h2' := List.cons.inj h1'.2
        exact absurd h2'.2 (by simp)

/-- Dissecting membership after a pushAssoc: an entry is either
untouched, the freshly appended key, or the extended existing key. -/
theorem mem_pushAssoc {β : Type} (m : List (String × List β)) (k : String) (vs : List β)
    (au : String) (us : List β) (h : (au, us) ∈ pushAssoc m k vs) :
    (au, us) ∈ m ∨ (au = k ∧ us = vs) ∨
      ∃ us0, (au, us0) ∈ m ∧ au = k ∧ us = us0 ++ vs := by
  induction m with
  | nil =>
    simp only [pushAssoc, List.mem_singleton, Prod.mk.injEq] at h
    exact Or.inr (Or.inl ⟨h.1, h.2⟩)
  | cons p rest ih =>
    obtain ⟨k0, v0⟩ := p
    simp only [pushAssoc] at h
    by_cases hk : (k0 == k) = true
    · rw [if_pos hk] at h
      have hek : k0 = k := by simpa using hk
      rcases List.mem_cons.mp h with heq | hmem
      · rw [Prod.mk.injEq] at heq
        refine Or.inr (Or.inr ⟨v0, ?_, ?_, heq.2⟩)
        · rw [heq.1]
          exact List.mem_cons_self _ _
        · rw [heq.1, hek]
      · exact Or.inl (List.mem_cons_of_mem _ hmem)
    · rw [if_neg hk] at h
      rcases List.mem_cons.mp h with heq | hmem
      · exact Or.inl (List.mem_cons.mpr (Or.inl heq))
      · rcases ih hmem with h1 | h2 | ⟨us0, h3, h4, h5⟩
        · exact Or.inl (List.mem_cons_of_mem _ h1)
        · exact Or.inr (Or.inl h2)
        · exact Or.inr (Or.inr ⟨us0, List.mem_cons_of_mem _ h3, h4, h5⟩)

/-- Provenance of an apply-map entry: the uuid was produced by the walk
of the sorted emitter list for a losing target of some removed group. -/
def ReplacementEntry (scene : Scene) (effects : List Effect) (au u : String) : Prop :=
  ∃ name targets target a,
    (name, targets) ∈ effectToRemovedMap scene effects ∧ target ∈ targets ∧
    target.actor = some a ∧ a.uuid = au ∧
    replacementFor scene (sortByCmp (bestCmp scene name) (allEmitting scene name)) name
      target = some u

/-- The inner per-target fold only adds replacement entries. -/
theorem inner_fold_good (scene : Scene) (effects : List Effect) (name : String)
    (allTargets : List TokenDoc)
    (hgrp : (name, allTargets) ∈ effectToRemovedMap scene effects)
    (targets : List TokenDoc) (hsub : ∀ t ∈ targets, t ∈ allTargets)
    (acc : List (String × List String))
    (hacc : ∀ au us, (au, us) ∈ acc → ∀ u ∈ us, ReplacementEntry scene effects au u) :
    ∀ au us, (au, us) ∈ targets.foldl (fun acc2 targetToken =>
      match replacementFor scene (sortByCmp (bestCmp scene name) (allEmitting scene name))
          name targetToken with
      | none => acc2
      | some effUuid =>
        match targetToken.actor with
        | none => acc2
        | some a => pushAssoc acc2 a.uuid [effUuid]) acc →
      ∀ u ∈ us, ReplacementEntry scene effects au u := by
  induction targets generalizing acc with
  | nil => exact hacc
  | cons t ts ih =>
    simp only [List.foldl_cons]
    apply ih (fun z hz => hsub z (List.mem_cons_of_mem t hz))
    cases hrep : replacementFor scene
        (sortByCmp (bestCmp scene name) (allEmitting scene name)) name t with
    | none => exact hacc
    | some effUuid =>
      cases hta : t.actor with
      | none => exact hacc
      | some a =>
        intro au us hmem u hu
        rcases mem_pushAssoc acc a.uuid [effUuid] au us hmem with h1 | ⟨hk, hv⟩
          | ⟨us0, h3, h4, h5⟩
        · exact hacc au us h1 u hu
        · rw [hv, List.mem_singleton] at hu
          rw [hu]
          exact ⟨name, allTargets, t, a, hgrp, hsub t (List.mem_cons_self t ts), hta,
            hk.symm, hrep⟩
        · rw [h5, List.mem_append] at hu
          rcases hu with hu0 | hu1
          · exact hacc au us0 h3 u hu0
          · rw [List.mem_singleton] at hu1
            rw [hu1]
            exact ⟨name, allTargets, t, a, hgrp, hsub t (List.mem_cons_self t ts), hta,
              h4.symm, hrep⟩

/-- The outer per-group fold only adds replacement entries. -/
theorem outer_fold_good (scene : Scene) (effects : List Effect)
    (gs : List (String × List TokenDoc))
    (hsub : ∀ g ∈ gs, g ∈ effectToRemovedMap scene effects)
    (acc : List (String × List String))
    (hacc : ∀ au us, (au, us) ∈ acc → ∀ u ∈ us, ReplacementEntry scene effects au u) :
    ∀ au us, (au, us) ∈ gs.foldl (fun acc g =>
      g.2.foldl (fun acc2 targetToken =>
        match replacementFor scene
            (sortByCmp (bestCmp scene g.1) (allEmitting scene g.1)) g.1 targetToken with
        | none => acc2
        | some effUuid =>
          match targetToken.actor with
          | none => acc2
          | some a => pushAssoc acc2 a.uuid [effUuid]) acc) acc →
      ∀ u ∈ us, ReplacementEntry scene effects au u := by
  induction gs generalizing acc with
  | nil => exact hacc
  | cons g gs2 ih =>
    simp only [List.foldl_cons]
    apply ih (fun z hz => hsub z (List.mem_cons_of_mem g hz))
    exact inner_fold_good scene effects g.1 g.2 (by
        have := hsub g (List.mem_cons_self g gs2)
        simpa using this) g.2 (fun z hz => hz) acc hacc

/-- Congruence for flatMap under pointwise equality on members. -/
theorem flatMap_congr_mem {α β : Type} (l : List α) (f g : α → List β)
    (h : ∀ x ∈ l, f x = g x) : l.flatMap f = l.flatMap g := by
  induction l with
  | nil => rfl
  | cons a t ih =>
    simp only [List.flatMap_cons]
    rw [h a (List.mem_cons_self a t), ih (fun x hx => h x (List.mem_cons_of_mem a hx))]

/-- The aura-derived applied effects of the mutated target actor: the
surviving originals (fromAura filter and removal filter commute)
followed by the clones of the toAdd list. -/
theorem deltaActor_applied_filter (scene : Scene) (tok : TokenDoc) (actor : Actor) :
    (deltaActor scene tok actor).appliedEffects.filter (fun e => e.fromAura)
    = (actor.appliedEffects.filter (fun e => e.fromAura)).filter
        (fun e => !((getChangingSceneAurasCore scene tok actor).1.map
          (fun e => e.uuid)).contains e.uuid)
      ++ (getChangingSceneAurasCore scene tok actor).2.map (cloneEffect actor) := by
  have h : (deltaActor scene tok actor).appliedEffects
      = actor.appliedEffects.filter
          (fun e => !((getChangingSceneAurasCore scene tok actor).1.map
            (fun e => e.uuid)).contains e.uuid)
        ++ (getChangingSceneAurasCore scene tok actor).2.map (cloneEffect actor) := rfl
  rw [h, List.filter_append]
  congr 1
  · rw [List.filter_filter, List.filter_filter]
    exact List.filter_congr (fun e _ => Bool.and_comm _ _)
  · rw [List.filter_eq_self]
    intro c hc
    rw [List.mem_map] at hc
    obtain ⟨src, _, hsrc⟩ := hc
    rw [← hsrc]
    rfl

/-- Membership in the surviving-original part of the mutated applied
list implies presence in the original list and absence from toRemove. -/
theorem surviving_elim (scene : Scene) (tok : TokenDoc) (actor : Actor) (e : Effect)
    (he : e ∈ (actor.appliedEffects.filter (fun e => e.fromAura)).filter
      (fun e => !((getChangingSceneAurasCore scene tok actor).1.map
        (fun e => e.uuid)).contains e.uuid)) :
    e ∈ actor.appliedEffects.filter (fun e => e.fromAura) ∧
    e ∉ (getChangingSceneAurasCore scene tok actor).1 := by
  rw [List.mem_filter] at he
  obtain ⟨hmem, hkeep⟩ := he
  refine ⟨hmem, fun hin => ?_⟩
  rw [Bool.not_eq_eq_eq_not, Bool.not_true] at hkeep
  have : ((getChangingSceneAurasCore scene tok actor).1.map (fun e => e.uuid)).contains
      e.uuid = true := by
    simp only [List.contains, List.elem_eq_mem, decide_eq_true_eq]
    exact List.mem_map_of_mem _ hin
  rw [this] at hkeep
  cases hkeep

/-- Re-running the scene delta scan after applying its output produces
no removal contribution from any (possibly updated) source token. -/
theorem stepRemovals_delta_nil (scene : Scene) (tok : TokenDoc) (actor : Actor)
    (h1 : tok.actor = some actor)
    (h2 : ((scene.tokens.flatMap aurasOfToken).map Effect.uuid).Nodup)
    (h5 : ((actor.appliedEffects.filter (fun e => e.fromAura)).map Effect.origin).Nodup)
    (h4 : ∀ s st rd, scene.scriptEval s (deltaActor scene tok actor)
      (deltaToken scene tok actor) st rd = scene.scriptEval s actor tok st rd)
    (st : TokenDoc) (hst : st ∈ scene.tokens) :
    stepRemovals (deltaScene scene tok actor) (deltaToken scene tok actor)
      (deltaActor scene tok actor)
      ((deltaActor scene tok actor).appliedEffects.filter (fun e => e.fromAura))
      (if actorIs st.actor actor then { st with actor := some (deltaActor scene tok actor) }
        else st)
    = [] := by
  by_cases hskip : actorIs st.actor actor = true
  · rw [if_pos hskip]
    have hl : actorIs (some (deltaActor scene tok actor)) (deltaActor scene tok actor)
        = true := by
      simp [actorIs]
    simp only [stepRemovals]
    rw [if_pos hl]
  · rw [Bool.not_eq_true] at hskip
    rw [if_neg (by simp [hskip])]
    have hA : actorIs st.actor (deltaActor scene tok actor) = actorIs st.actor actor := rfl
    have hd : (deltaToken scene tok actor).disposition = tok.disposition := rfl
    simp only [stepRemovals, hA, hd, hskip, Bool.false_eq_true, if_false, ite_false,
      auraFails_delta scene tok actor h1 h4 st, deltaActor_applied_filter]
    rw [List.append_eq_nil]
    constructor
    · -- the inactive-origin sweep finds nothing to remove
      by_cases hin : ((getAllAuraEffects st.actor).2.isEmpty : Bool)
      · rw [if_pos hin]
      · rw [if_neg hin, List.filter_eq_nil_iff]
        intro ae hae hpred
        rw [List.any_eq_true] at hpred
        obtain ⟨ie, hie, hiepred⟩ := hpred
        rw [List.mem_append] at hae
        rcases hae with hold | hclone
        · -- a surviving original matching an inactive origin would have
          -- been removed by the first pass
          obtain ⟨hmem, hnotrem⟩ := surviving_elim scene tok actor ae hold
          apply hnotrem
          apply mem_toRemove_of_stepRemovals scene tok actor st hst
          simp only [stepRemovals, hskip, Bool.false_eq_true, if_false, ite_false]
          apply List.mem_append_left
          rw [if_neg hin]
          rw [List.mem_filter]
          exact ⟨hmem, List.any_eq_true.mpr ⟨ie, hie, hiepred⟩⟩
        · -- a clone originating from an active aura cannot match an
          -- inactive aura of the same uuid
          obtain ⟨src, hsrcD2, hsrceq⟩ := List.mem_map.mp hclone
          have horig : ae.origin = some src.uuid := by rw [← hsrceq]; rfl
          rw [horig] at hiepred
          have huuid : src.uuid = ie.uuid := by simpa using hiepred
          obtain ⟨t2, ht2, hsa⟩ := mem_toAdd_elim scene tok actor src hsrcD2
          obtain ⟨hmem2, hflags, _, _⟩ := mem_stepAdds scene tok actor t2 src hsa
          have hie2 : ie ∈ aurasOfToken st ∧ (!(!ie.disabled && !ie.isSuppressed)) = true := by
            have := hie
            rw [getAllAuraEffects_eq] at this
            exact (List.mem_filter.mp this).imp id (fun h => h)
          obtain ⟨heq, -⟩ := aura_uuid_unique scene.tokens h2 t2 ht2 st hst src hmem2 ie
            hie2.1 huuid
          rw [← heq] at hie2
          rw [hflags] at hie2
          cases hie2.2
    · -- the per-effect loop finds nothing to remove
      rw [List.filterMap_eq_nil_iff]
      intro ce hce
      by_cases hfail : auraFails scene st tok ce = true
      · rw [if_pos hfail]
        rw [List.find?_eq_none]
        intro ae hae hpred
        have horigae : ae.origin = some ce.uuid := by simpa using hpred
        rw [List.mem_append] at hae
        rcases hae with hold | hclone
        · -- a surviving original with this origin: the first pass found
          -- one (the same one, by origin uniqueness) and removed it
          obtain ⟨hmem, hnotrem⟩ := surviving_elim scene tok actor ae hold
          have hsome : (List.find? (fun e => e.origin == some ce.uuid)
              (actor.appliedEffects.filter (fun e => e.fromAura))).isSome = true :=
            List.find?_isSome.mpr ⟨ae, hmem, hpred⟩
          obtain ⟨ca, hfind⟩ := Option.isSome_iff_exists.mp hsome
          have hca_mem : ca ∈ actor.appliedEffects.filter (fun e => e.fromAura) :=
            List.mem_of_find?_eq_some hfind
          have hca_origin : ca.origin = some ce.uuid := by
            have := List.find?_some hfind
            simpa using this
          have hca_rem : ca ∈ (getChangingSceneAurasCore scene tok actor).1 := by
            apply mem_toRemove_of_stepRemovals scene tok actor st hst
            simp only [stepRemovals, hskip, Bool.false_eq_true, if_false, ite_false]
            apply List.mem_append_right
            rw [List.mem_filterMap]
            exact ⟨ce, hce, by rw [if_pos hfail]; exact hfind⟩
          have : ae = ca := List.inj_on_of_nodup_map h5 hmem hca_mem
            (by rw [horigae, hca_origin])
          rw [this] at hnotrem
          exact hnotrem hca_rem
        · -- a clone with this origin: the source aura passed at its own
          -- emitter, which is this very token and effect — contradiction
          obtain ⟨src, hsrcD2, hsrceq⟩ := List.mem_map.mp hclone
          have horig : ae.origin = some src.uuid := by rw [← hsrceq]; rfl
          have huuid : src.uuid = ce.uuid := by
            rw [horig] at horigae
            exact Option.some.inj horigae
          obtain ⟨t2, ht2, hsa⟩ := mem_toAdd_elim scene tok actor src hsrcD2
          obtain ⟨hmem2, _, hsrcok, _⟩ := mem_stepAdds scene tok actor t2 src hsa
          have hce2 : ce ∈ aurasOfToken st := by
            have := hce
            rw [getAllAuraEffects_eq] at this
            have := (List.mem_filter.mp this).1
            exact (List.mem_filter.mp this).1
          obtain ⟨heq, heqt⟩ := aura_uuid_unique scene.tokens h2 t2 ht2 st hst src hmem2 ce
            hce2 huuid
          rw [heq, heqt] at hsrcok
          rw [hsrcok] at hfail
          cases hfail
      · rw [Bool.not_eq_true] at hfail
        rw [if_neg (by simp [hfail])]

/-- Re-running the stale safety net after applying the delta finds
nothing: surviving originals were screened by the first pass and clones
resolve to their active sources. -/
theorem staleApplied_delta_nil (scene : Scene) (tok : TokenDoc) (actor : Actor)
    (h3 : ∀ t ∈ scene.tokens, ∀ e ∈ aurasOfToken t, scene.resolveEffect e.uuid = some e) :
    staleApplied (deltaScene scene tok actor) (deltaActor scene tok actor) = [] := by
  have hres : (deltaScene scene tok actor).resolveEffect = scene.resolveEffect := rfl
  have happ : (deltaActor scene tok actor).appliedEffects
      = actor.appliedEffects.filter
          (fun e => !((getChangingSceneAurasCore scene tok actor).1.map
            (fun e => e.uuid)).contains e.uuid)
        ++ (getChangingSceneAurasCore scene tok actor).2.map (cloneEffect actor) := rfl
  simp only [staleApplied, hres, happ]
  rw [List.filter_eq_nil_iff]
  intro e he
  rw [List.mem_append] at he
  intro hcond
  rcases he with hold | hclone
  · rw [List.mem_filter] at hold
    obtain ⟨hmem, hkeep⟩ := hold
    rw [Bool.and_eq_true] at hcond
    have hstale : e ∈ staleApplied scene actor := by
      rw [staleApplied, List.mem_filter]
      exact ⟨hmem, by rw [Bool.and_eq_true]; exact hcond⟩
    have hrem : e ∈ (getChangingSceneAurasCore scene tok actor).1 :=
      mem_toRemove_of_stale scene tok actor e hstale
    rw [Bool.not_eq_eq_eq_not, Bool.not_true] at hkeep
    have : ((getChangingSceneAurasCore scene tok actor).1.map (fun e => e.uuid)).contains
        e.uuid = true := by
      simp only [List.contains, List.elem_eq_mem, decide_eq_true_eq]
      exact List.mem_map_of_mem _ hrem
    rw [this] at hkeep
    cases hkeep
  · obtain ⟨src, hsrcD2, hsrceq⟩ := List.mem_map.mp hclone
    obtain ⟨t2, ht2, hsa⟩ := mem_toAdd_elim scene tok actor src hsrcD2
    obtain ⟨hmem2, hflags, _, _⟩ := mem_stepAdds scene tok actor t2 src hsa
    have hres2 : scene.resolveEffect src.uuid = some src := h3 t2 ht2 src hmem2
    have hflags2 : src.disabled = false ∧ src.isSuppressed = false := by
      rw [Bool.and_eq_true, Bool.not_eq_true', Bool.not_eq_true'] at hflags
      exact hflags
    have horig : e.origin = some src.uuid := by rw [← hsrceq]; rfl
    rw [Bool.and_eq_true] at hcond
    have hcond2 := hcond.2
    rw [horig] at hcond2
    simp only [Option.some_bind, hres2, hflags2.1, hflags2.2, Bool.or_self] at hcond2
    cases hcond2

/-- C2 (amended): re-running the Scene Delta Calculator immediately
after applying its own output yields an empty toRemove list, but the
toAdd list is reproduced unchanged rather than empty — the per-source
addition branch does not exclude already-applied origins.  Hypotheses:
the target token carries its actor; scene-wide aura uuids are distinct;
uuid resolution is consistent with the scene; applied aura-derived
origins on the target are distinct; and predicate evaluation does not
observe the mutated state. -/
theorem sceneDelta_rerun (scene : Scene) (tok : TokenDoc) (actor : Actor)
    (h1 : tok.actor = some actor)
    (h2 : ((scene.tokens.flatMap aurasOfToken).map Effect.uuid).Nodup)
    (h3 : ∀ t ∈ scene.tokens, ∀ e ∈ aurasOfToken t, scene.resolveEffect e.uuid = some e)
    (h5 : ((actor.appliedEffects.filter (fun e => e.fromAura)).map Effect.origin).Nodup)
    (h4 : ∀ s st rd, scene.scriptEval s (deltaActor scene tok actor)
      (deltaToken scene tok actor) st rd = scene.scriptEval s actor tok st rd) :
    getChangingSceneAurasCore (sceneDeltaApplied scene tok actor).1
      (sceneDeltaApplied scene tok actor).2.1 (sceneDeltaApplied scene tok actor).2.2
    = ([], (getChangingSceneAurasCore scene tok actor).2) := by
  rw [sceneDeltaApplied_eq]
  rw [getChangingSceneAurasCore_eq]
  have htoks : (deltaScene scene tok actor).tokens
      = scene.tokens.map (fun t => if actorIs t.actor actor
          then { t with actor := some (deltaActor scene tok actor) } else t) := rfl
  rw [htoks, List.flatMap_map, List.flatMap_map]
  have hrem : scene.tokens.flatMap (fun t => stepRemovals (deltaScene scene tok actor)
      (deltaToken scene tok actor) (deltaActor scene tok actor)
      ((deltaActor scene tok actor).appliedEffects.filter (fun e => e.fromAura))
      (if actorIs t.actor actor then { t with actor := some (deltaActor scene tok actor) }
        else t)) = [] := by
    rw [List.flatMap_eq_nil_iff]
    intro st hst
    exact stepRemovals_delta_nil scene tok actor h1 h2 h5 h4 st hst
  have hadds : scene.tokens.flatMap (fun t => stepAdds (deltaScene scene tok actor)
      (deltaToken scene tok actor) (deltaActor scene tok actor)
      (if actorIs t.actor actor then { t with actor := some (deltaActor scene tok actor) }
        else t)) = scene.tokens.flatMap (stepAdds scene tok actor) := by
    apply flatMap_congr_mem
    intro st _
    exact stepAdds_delta scene tok actor h1 h4 st
  rw [hrem, hadds, staleApplied_delta_nil scene tok actor h3]
  rw [getChangingSceneAurasCore_eq]
  simp

end AuraEffects

namespace AuraEffects

/-- C5 (amended): the two grid regimes of `getTokenToTokenDistance`.  On
a gridless scene the result is the (collision-aware) measured path
distance between the two token center points minus the moving token
external radius converted into grid distance units; on a gridded scene
it is the minimum over the cross-product of occupied-cell centers with
no external-radius correction (subtracting a zero adjustment).  The
elevation of token A comes from the origin override when supplied, else
its current elevation.  (The non-negativity asserted by the original
claim fails: see the counterexample.) -/
theorem tokenToTokenDistance_cases (scene : Scene) (tokenA tokenB : TokenDoc)
    (origin : Option TokenPos) (cts : List String) :
    (scene.grid.isGridless = true →
      getTokenToTokenDistance scene tokenA tokenB origin cts =
        (getDistance scene
          ⟨(scene.grid.getCenterPoint (tokenA.centerPoint origin)).x,
           (scene.grid.getCenterPoint (tokenA.centerPoint origin)).y,
           originElevation origin tokenA⟩
          ⟨(scene.grid.getCenterPoint (tokenB.centerPoint none)).x,
           (scene.grid.getCenterPoint (tokenB.centerPoint none)).y,
           tokenB.elevation⟩ cts).sub
          ((scene.grid.distance / scene.grid.size) * tokenA.externalRadius)) ∧
    (scene.grid.isGridless = false →
      getTokenToTokenDistance scene tokenA tokenB origin cts =
        (EDist.minList ((tokenA.occupiedOffsets origin).flatMap (fun offsetA =>
          (tokenB.occupiedOffsets none).map (fun offsetB =>
            getDistance scene
              ⟨(scene.grid.getCenterPoint offsetA).x,
               (scene.grid.getCenterPoint offsetA).y,
               originElevation origin tokenA⟩
              ⟨(scene.grid.getCenterPoint offsetB).x,
               (scene.grid.getCenterPoint offsetB).y,
               tokenB.elevation⟩ cts)))).sub 0) := by
  constructor
  · intro hgl
    simp only [getTokenToTokenDistance, hgl, if_pos, ite_true]
    have : EDist.minList [getDistance scene
          ⟨(scene.grid.getCenterPoint (tokenA.centerPoint origin)).x,
           (scene.grid.getCenterPoint (tokenA.centerPoint origin)).y,
           originElevation origin tokenA⟩
          ⟨(scene.grid.getCenterPoint (tokenB.centerPoint none)).x,
           (scene.grid.getCenterPoint (tokenB.centerPoint none)).y,
           tokenB.elevation⟩ cts] =
        getDistance scene
          ⟨(scene.grid.getCenterPoint (tokenA.centerPoint origin)).x,
           (scene.grid.getCenterPoint (tokenA.centerPoint origin)).y,
           originElevation origin tokenA⟩
          ⟨(scene.grid.getCenterPoint (tokenB.centerPoint none)).x,
           (scene.grid.getCenterPoint (tokenB.centerPoint none)).y,
           tokenB.elevation⟩ cts := by
      cases h : getDistance scene _ _ cts <;> simp [EDist.minList, EDist.min, h]
    simp [List.flatMap, this, mul_comm]
  · intro hgr
    simp [getTokenToTokenDistance, hgr]

/-- Concrete gridless grid for the C5 counterexample: cell distance 5,
pixel size 100, identity center conversion, taxicab path metric. -/
def c5Grid : Grid where
  isGridless := true
  size := 100
  distance := 5
  getCenterPoint := fun p => p
  measurePath := fun a b => |b.x - a.x| + |b.y - a.y| + |b.elevation - a.elevation|

/-- A token sitting at the scene origin with external radius 1 pixel. -/
def c5TokenA : TokenDoc where
  id := "c5A"
  actor := none
  disposition := 1
  x := 0
  y := 0
  elevation := 0
  width := 1
  hidden := false
  center := ⟨0, 0⟩
  centerPoint := fun _ => ⟨0, 0⟩
  occupiedOffsets := fun _ => [⟨0, 0⟩]
  externalRadius := 1
  movement := ⟨"stopped", none, ⟨0, 0, 0⟩⟩

/-- A second token at the same position. -/
def c5TokenB : TokenDoc where
  id := "c5B"
  actor := none
  disposition := 1
  x := 0
  y := 0
  elevation := 0
  width := 1
  hidden := false
  center := ⟨0, 0⟩
  centerPoint := fun _ => ⟨0, 0⟩
  occupiedOffsets := fun _ => [⟨0, 0⟩]
  externalRadius := 1
  movement := ⟨"stopped", none, ⟨0, 0, 0⟩⟩

/-- A gridless scene containing the two overlapping tokens, with no
obstructions. -/
def c5Scene : Scene where
  grid := c5Grid
  tokens := [c5TokenA, c5TokenB]
  testCollision := fun _ _ _ => false
  scriptCompile := fun _ => none
  scriptEval := fun _ _ _ _ _ => .ok true
  rollTotal := fun _ _ => 0
  resolveEffect := fun _ => none
  quadtree := fun _ => [c5TokenA, c5TokenB]

/-- C5 counterexample: on a gridless scene, `tokenToTokenDistance` is not
always non-negative — two overlapping tokens measure `0` center-to-center
and the external-radius correction drives the result to `-1/20` grid
units, which is strictly below `0`. -/
theorem tokenToTokenDistance_negative_counterexample :
    getTokenToTokenDistance c5Scene c5TokenA c5TokenB none [] = .fin (-(1/20)) ∧
    EDist.lt (getTokenToTokenDistance c5Scene c5TokenA c5TokenB none []) (.fin 0) := by
  have h : getTokenToTokenDistance c5Scene c5TokenA c5TokenB none [] = .fin (-(1/20)) := by
    simp only [getTokenToTokenDistance, getDistance, originElevation, c5Scene, c5Grid,
      c5TokenA, c5TokenB, EDist.minList, EDist.min, EDist.sub, List.flatMap, List.map,
      List.any, List.foldr, List.flatten, if_false, Bool.false_eq_true, ite_true, ite_false]
    norm_num
  refine ⟨h, ?_⟩
  rw [h]
  show (-(1/20) : ℚ) < 0
  norm_num

/-- C5 witness: the amended characterization instantiated on the concrete
gridless scene reproduces the measured-minus-correction value. -/
theorem tokenToTokenDistance_cases_witness :
    c5Scene.grid.isGridless = true ∧
    getTokenToTokenDistance c5Scene c5TokenA c5TokenB none [] =
      (getDistance c5Scene
        ⟨(c5Scene.grid.getCenterPoint (c5TokenA.centerPoint none)).x,
         (c5Scene.grid.getCenterPoint (c5TokenA.centerPoint none)).y,
         originElevation none c5TokenA⟩
        ⟨(c5Scene.grid.getCenterPoint (c5TokenB.centerPoint none)).x,
         (c5Scene.grid.getCenterPoint (c5TokenB.centerPoint none)).y,
         c5TokenB.elevation⟩ []).sub
        ((c5Scene.grid.distance / c5Scene.grid.size) * c5TokenA.externalRadius) :=
  ⟨rfl, (tokenToTokenDistance_cases c5Scene c5TokenA c5TokenB none []).1 rfl⟩

/-- C6: if any listed collision type reports an obstruction, the distance
is `Infinity`, which strictly exceeds every finite radius; otherwise the
distance is the measured grid path distance between the two points. -/
theorem getDistance_collision_infinite (scene : Scene) (a b : Point3)
    (collisionTypes : List String) :
    ((∃ ct ∈ collisionTypes, scene.testCollision ct a b = true) →
      getDistance scene a b collisionTypes = .inf ∧
      ∀ r : ℚ, EDist.lt (.fin r) (getDistance scene a b collisionTypes)) ∧
    ((∀ ct ∈ collisionTypes, scene.testCollision ct a b = false) →
      getDistance scene a b collisionTypes = .fin (scene.grid.measurePath a b)) := by
  constructor
  · rintro ⟨ct, hmem, hcol⟩
    have hany : collisionTypes.any (fun ct => scene.testCollision ct a b) = true := by
      rw [List.any_eq_true]
      exact ⟨ct, hmem, hcol⟩
    refine ⟨by simp [getDistance, hany], ?_⟩
    intro r
    simp [getDistance, hany, EDist.lt]
  · intro hnone
    have hany : collisionTypes.any (fun ct => scene.testCollision ct a b) = false := by
      rw [List.any_eq_false]
      intro ct hmem
      simp [hnone ct hmem]
    simp [getDistance, hany]

/-- A scene with a single collision type whose ray test always reports an
obstruction, used to witness C6. -/
def c6Scene : Scene where
  grid := c5Grid
  tokens := []
  testCollision := fun ct _ _ => ct == "move"
  scriptCompile := fun _ => none
  scriptEval := fun _ _ _ _ _ => .ok true
  rollTotal := fun _ _ => 0
  resolveEffect := fun _ => none
  quadtree := fun _ => []

/-- C6 witness: with an obstructing collision type listed, the measured
distance between two concrete points is `Infinity` and exceeds the
finite radius 30; with no collision types, it is the measured path
distance. -/
theorem getDistance_collision_infinite_witness :
    getDistance c6Scene ⟨0, 0, 0⟩ ⟨3, 4, 0⟩ ["move"] = .inf ∧
    EDist.lt (.fin 30) (getDistance c6Scene ⟨0, 0, 0⟩ ⟨3, 4, 0⟩ ["move"]) ∧
    getDistance c6Scene ⟨0, 0, 0⟩ ⟨3, 4, 0⟩ [] = .fin 7 := by
  have h := getDistance_collision_infinite c6Scene ⟨0, 0, 0⟩ ⟨3, 4, 0⟩ ["move"]
  have h2 := getDistance_collision_infinite c6Scene ⟨0, 0, 0⟩ ⟨3, 4, 0⟩ []
  obtain ⟨hinf, hlt⟩ := h.1 ⟨"move", by decide, by decide⟩
  refine ⟨hinf, hlt 30, ?_⟩
  have := h2.2 (by intro ct hct; cases hct)
  rw [this]
  norm_num [c6Scene, c5Grid]

/-- C8 (amended): predicate evaluation is fail-open only past the
compile.  An empty or whitespace-only script returns `true`; a script
that compiles but whose call raises is caught, logged with source actor
name, effect name and error context, and returns `true`; a script that
compiles and evaluates returns its boolean; but the `Function(...)`
compile runs before the `try` block, so a compilation `SyntaxError`
propagates uncaught to the caller. -/
theorem executeScript_failOpen (scene : Scene) (sourceToken token : TokenDoc)
    (effect : Effect) (a sa : Actor)
    (ha : token.actor = some a) (hsa : sourceToken.actor = some sa) :
    ((jsTrim (effect.system.script.getD "")).isEmpty = true →
      executeScript scene sourceToken token effect = .value true none) ∧
    (∀ err, (jsTrim (effect.system.script.getD "")).isEmpty = false →
      scene.scriptCompile (effect.system.script.getD "") = none →
      scene.scriptEval (effect.system.script.getD "") a token sourceToken a.rollData
        = .error err →
      executeScript scene sourceToken token effect
        = .value true (some ⟨sa.name, effect.name, err⟩)) ∧
    (∀ b, (jsTrim (effect.system.script.getD "")).isEmpty = false →
      scene.scriptCompile (effect.system.script.getD "") = none →
      scene.scriptEval (effect.system.script.getD "") a token sourceToken a.rollData
        = .ok b →
      executeScript scene sourceToken token effect = .value b none) ∧
    (∀ e, (jsTrim (effect.system.script.getD "")).isEmpty = false →
      scene.scriptCompile (effect.system.script.getD "") = some e →
      executeScript scene sourceToken token effect = .syntaxError e) := by
  refine ⟨?_, ?_, ?_, ?_⟩
  · intro hempty
    simp [executeScript, ha, hempty]
  · intro err hne hc herr
    simp [executeScript, ha, hsa, hne, hc, herr]
  · intro b hne hc hok
    simp [executeScript, ha, hne, hc, hok]
  · intro e hne hc
    simp [executeScript, ha, hne, hc]

/-- Actor fixture for the C8 witness (the aura emitter). -/
def c8SourceActor : Actor where
  uuid := "Actor.src"
  name := "Emitter"
  rollData := "rd-src"
  effects := []
  appliedEffects := []
  allApplicableEffects := []

/-- Actor fixture for the C8 witness (the candidate). -/
def c8CandidateActor : Actor where
  uuid := "Actor.cand"
  name := "Candidate"
  rollData := "rd-cand"
  effects := []
  appliedEffects := []
  allApplicableEffects := []

/-- Token fixture for the C8 witness (the aura emitter). -/
def c8SourceToken : TokenDoc where
  id := "c8src"
  actor := some c8SourceActor
  disposition := 1
  x := 0
  y := 0
  elevation := 0
  width := 1
  hidden := false
  center := ⟨0, 0⟩
  centerPoint := fun _ => ⟨0, 0⟩
  occupiedOffsets := fun _ => [⟨0, 0⟩]
  externalRadius := 0
  movement := ⟨"stopped", none, ⟨0, 0, 0⟩⟩

/-- Token fixture for the C8 witness (the candidate). -/
def c8CandidateToken : TokenDoc where
  id := "c8cand"
  actor := some c8CandidateActor
  disposition := 1
  x := 0
  y := 0
  elevation := 0
  width := 1
  hidden := false
  center := ⟨0, 0⟩
  centerPoint := fun _ => ⟨0, 0⟩
  occupiedOffsets := fun _ => [⟨0, 0⟩]
  externalRadius := 0
  movement := ⟨"stopped", none, ⟨0, 0, 0⟩⟩

/-- A scene whose script evaluator raises on the script `"boom"` and
returns `true` otherwise. -/
def c8Scene : Scene where
  grid := c5Grid
  tokens := [c8SourceToken, c8CandidateToken]
  testCollision := fun _ _ _ => false
  scriptCompile := fun _ => none
  scriptEval := fun s _ _ _ _ => if s = "boom" then .error "SyntaxError" else .ok true
  rollTotal := fun _ _ => 0
  resolveEffect := fun _ => none
  quadtree := fun _ => [c8SourceToken, c8CandidateToken]

/-- An aura effect whose conditional script raises on evaluation. -/
def c8BrokenEffect : Effect where
  uuid := "Effect.broken"
  name := "Broken Aura"
  type := "auraeffects.aura"
  disabled := false
  isSuppressed := false
  origin := none
  fromAura := false
  modifiesActor := true
  targetIsActor := true
  parentActorUuid := some "Actor.src"
  system := ⟨some "boom", 30, 0, [], "", none, false, false⟩

/-- An aura effect with a whitespace-only conditional script. -/
def c8BlankEffect : Effect where
  uuid := "Effect.blank"
  name := "Blank Aura"
  type := "auraeffects.aura"
  disabled := false
  isSuppressed := false
  origin := none
  fromAura := false
  modifiesActor := true
  targetIsActor := true
  parentActorUuid := some "Actor.src"
  system := ⟨some "  ", 30, 0, [], "", none, false, false⟩

/-- An aura effect whose conditional script does not compile. -/
def c8SyntaxEffect : Effect where
  uuid := "Effect.syn"
  name := "Syntax Aura"
  type := "auraeffects.aura"
  disabled := false
  isSuppressed := false
  origin := none
  fromAura := false
  modifiesActor := true
  targetIsActor := true
  parentActorUuid := some "Actor.src"
  system := ⟨some "syntax(", 30, 0, [], "", none, false, false⟩

/-- The C8 world with a compiler that rejects the malformed script
`"syntax("` (the `Function(...)` constructor raising a `SyntaxError`)
and evaluates everything else to `true`. -/
def c8CompileScene : Scene where
  grid := c5Grid
  tokens := [c8SourceToken, c8CandidateToken]
  testCollision := fun _ _ _ => false
  scriptCompile := fun s =>
    if s = "syntax(" then some "SyntaxError: Unexpected token" else none
  scriptEval := fun _ _ _ _ _ => .ok true
  rollTotal := fun _ _ => 0
  resolveEffect := fun _ => none
  quadtree := fun _ => [c8SourceToken, c8CandidateToken]

/-- C8 witness: on the concrete scenes a whitespace script returns
`true` with no log, the script raising at call time returns `true` with
the logged actor name, effect name and error, and the script failing to
compile surfaces the `SyntaxError`. -/
theorem executeScript_failOpen_witness :
    executeScript c8Scene c8SourceToken c8CandidateToken c8BlankEffect = .value true none ∧
    executeScript c8Scene c8SourceToken c8CandidateToken c8BrokenEffect
      = .value true (some ⟨"Emitter", "Broken Aura", "SyntaxError"⟩) ∧
    executeScript c8CompileScene c8SourceToken c8CandidateToken c8SyntaxEffect
      = .syntaxError "SyntaxError: Unexpected token" := by
  refine ⟨?_, ?_, ?_⟩
  · exact (executeScript_failOpen c8Scene c8SourceToken c8CandidateToken c8BlankEffect
      c8CandidateActor c8SourceActor rfl rfl).1 (by decide)
  · exact (executeScript_failOpen c8Scene c8SourceToken c8CandidateToken c8BrokenEffect
      c8CandidateActor c8SourceActor rfl rfl).2.1 "SyntaxError" (by decide) rfl rfl
  · exact (executeScript_failOpen c8CompileScene c8SourceToken c8CandidateToken c8SyntaxEffect
      c8CandidateActor c8SourceActor rfl rfl).2.2.2 "SyntaxError: Unexpected token"
      (by decide) (by decide)

/-- C8 counterexample: a conditional script that fails to compile makes
`executeScript` raise the `SyntaxError` to its caller instead of
catching it — the invocation returns no value at all, refuting the
claim that compilation errors are caught and resolved fail-open. -/
theorem executeScript_compileError_counterexample :
    executeScript c8CompileScene c8SourceToken c8CandidateToken c8SyntaxEffect
      = .syntaxError "SyntaxError: Unexpected token" ∧
    ∀ b log, executeScript c8CompileScene c8SourceToken c8CandidateToken c8SyntaxEffect
      ≠ ScriptOutcome.value b log := by
  have he : executeScript c8CompileScene c8SourceToken c8CandidateToken c8SyntaxEffect
      = .syntaxError "SyntaxError: Unexpected token" := by decide
  refine ⟨he, fun b log h => ?_⟩
  rw [he] at h
  simp at h

/-- Membership in a `getNearbyTokens` result implies the token carries
an actor: the prefilter rejects actorless tokens. -/
theorem mem_getNearbyTokens_actor (scene : Scene) (source : TokenDoc) (radius : ℚ)
    (origin : Option TokenPos) (disposition : Int) (cts : List String) (t : TokenDoc)
    (ht : t ∈ getNearbyTokens scene source radius origin disposition cts) :
    ∃ a, t.actor = some a := by
  simp only [getNearbyTokens, List.mem_filter] at ht
  obtain ⟨⟨_, hdisp⟩, _⟩ := ht
  cases hta : t.actor with
  | none => rw [hta] at hdisp; exact absurd hdisp (by simp)
  | some a => exact ⟨a, rfl⟩

/-- C10 (amended): every token returned by `getNearbyTokens` carries an
actor — the prefilter explicitly rejects actorless tokens — so the
unguarded candidate-actor dereference in `executeScript` cannot fail on
them.  The fail-open catch block is not the only error path on these
candidates, however: a compile-broken script still throws an uncaught
`SyntaxError` (see the counterexample). -/
theorem getNearbyTokens_actors_present (scene : Scene) (source : TokenDoc) (radius : ℚ)
    (origin : Option TokenPos) (disposition : Int) (cts : List String) :
    ∀ t ∈ getNearbyTokens scene source radius origin disposition cts,
      (∃ a, t.actor = some a) ∧
      (∀ effect, executeScript scene source t effect
        ≠ .typeError .candidateActorMissing) := by
  intro t ht
  obtain ⟨a, ha⟩ := mem_getNearbyTokens_actor scene source radius origin disposition cts t ht
  refine ⟨⟨a, ha⟩, ?_⟩
  intro effect
  simp only [executeScript, ha]
  by_cases hs : ((jsTrim (effect.system.script.getD "")).isEmpty : Bool)
  · simp [hs]
  · simp only [hs, Bool.false_eq_true, if_false, ite_false]
    cases scene.scriptCompile (effect.system.script.getD "") with
    | some e => simp
    | none =>
      cases scene.scriptEval (effect.system.script.getD "") a t source a.rollData with
      | ok b => simp
      | error err =>
        cases source.actor with
        | none => simp
        | some sa => simp

/-- C10 counterexample: an actor-bearing candidate produced by
`getNearbyTokens` still makes `executeScript` throw when the conditional
script does not compile, so the deref-safety of the candidates does not
make the catch block the only error path. -/
theorem getNearbyTokens_compileThrow_counterexample :
    c8CandidateToken ∈ getNearbyTokens c8CompileScene c8SourceToken 30 none 0 [] ∧
    executeScript c8CompileScene c8SourceToken c8CandidateToken c8SyntaxEffect
      = ScriptOutcome.syntaxError "SyntaxError: Unexpected token" := by
  constructor
  · simp only [getNearbyTokens, getGenerallyWithin, getTokenToTokenDistance, getDistance,
      originElevation, c8CompileScene, c5Grid, c8SourceToken, c8CandidateToken,
      EDist.minList, EDist.min, EDist.sub, EDist.leq, List.flatMap, List.map, List.foldr,
      List.flatten, List.filter, List.any]
    norm_num [c8SourceActor, c8CandidateActor]
  · decide

/-- An active aura source effect owned by the C1 source actor. -/
def c1SourceEffect : Effect where
  uuid := "Effect.S1"
  name := "Aura S"
  type := "auraeffects.aura"
  disabled := false
  isSuppressed := false
  origin := none
  fromAura := false
  modifiesActor := true
  targetIsActor := true
  parentActorUuid := some "Actor.S"
  system := ⟨none, 30, 0, [], "", none, false, false⟩

/-- The applied clone of `c1SourceEffect` already present on the C1
target actor (origin back-reference and provenance flag set). -/
def c1AppliedClone : Effect where
  uuid := "Effect.S1.applied"
  name := "Aura S"
  type := "auraeffects.aura"
  disabled := false
  isSuppressed := false
  origin := some "Effect.S1"
  fromAura := true
  modifiesActor := true
  targetIsActor := true
  parentActorUuid := some "Actor.T"
  system := ⟨none, 30, 0, [], "", none, false, false⟩

/-- The C1 emitting actor, holding the active aura source effect. -/
def c1SourceActor : Actor where
  uuid := "Actor.S"
  name := "Source"
  rollData := "rd-S"
  effects := [c1SourceEffect]
  appliedEffects := [c1SourceEffect]
  allApplicableEffects := [c1SourceEffect]

/-- The C1 target actor, already holding the applied clone. -/
def c1TargetActor : Actor where
  uuid := "Actor.T"
  name := "Target"
  rollData := "rd-T"
  effects := [c1AppliedClone]
  appliedEffects := [c1AppliedClone]
  allApplicableEffects := [c1AppliedClone]

/-- The C1 emitting token. -/
def c1TokenS : TokenDoc where
  id := "tokS"
  actor := some c1SourceActor
  disposition := 1
  x := 0
  y := 0
  elevation := 0
  width := 1
  hidden := false
  center := ⟨0, 0⟩
  centerPoint := fun _ => ⟨0, 0⟩
  occupiedOffsets := fun _ => [⟨0, 0⟩]
  externalRadius := 0
  movement := ⟨"stopped", none, ⟨0, 0, 0⟩⟩

/-- The C1 target token, adjacent to the emitter. -/
def c1TokenT : TokenDoc where
  id := "tokT"
  actor := some c1TargetActor
  disposition := 1
  x := 0
  y := 0
  elevation := 0
  width := 1
  hidden := false
  center := ⟨0, 0⟩
  centerPoint := fun _ => ⟨0, 0⟩
  occupiedOffsets := fun _ => [⟨0, 0⟩]
  externalRadius := 0
  movement := ⟨"stopped", none, ⟨0, 0, 0⟩⟩

/-- A gridded unit grid whose path measurement is identically zero (the
two C1 tokens share a cell). -/
def c1Grid : Grid where
  isGridless := false
  size := 1
  distance := 1
  getCenterPoint := fun p => p
  measurePath := fun _ _ => 0

/-- The C1 scene: emitter and target adjacent, uuid resolution mapping
the source effect uuid to the source effect. -/
def c1Scene : Scene where
  grid := c1Grid
  tokens := [c1TokenS, c1TokenT]
  testCollision := fun _ _ _ => false
  scriptCompile := fun _ => none
  scriptEval := fun _ _ _ _ _ => .ok true
  rollTotal := fun _ _ => 0
  resolveEffect := fun u => if u == "Effect.S1" then some c1SourceEffect
    else if u == "Effect.S1.applied" then some c1AppliedClone else none
  quadtree := fun _ => [c1TokenS, c1TokenT]

/-- C1 counterexample: not every addition path filters out target actors
that already hold an effect with the source origin.  The target actor
already holds the applied clone of the source effect, yet the scene
delta calculator still lists the source effect in its toAdd output
(which `moveToken` and `addRemoveEffect` turn directly into apply
requests). -/
theorem sceneDelta_add_ignores_applied_counterexample :
    (∃ e ∈ c1TargetActor.effects, e.origin = some c1SourceEffect.uuid ∧ e.fromAura = true) ∧
    getChangingSceneAurasCore c1Scene c1TokenT c1TargetActor = ([], [c1SourceEffect]) := by
  constructor
  · exact ⟨c1AppliedClone, by simp [c1TargetActor], by simp [c1AppliedClone, c1SourceEffect]⟩
  · norm_num [getChangingSceneAurasCore, gcsaStep, staleApplied, getAllAuraEffects, auraFails,
      getTokenToTokenDistance, getDistance, executeScriptB, jsTrim, actorIs, EDist.qlt,
      EDist.minList, EDist.min, EDist.sub, originElevation, List.partition_eq_filter_filter,
      c1Scene, c1Grid, c1TokenS, c1TokenT, c1SourceActor, c1TargetActor, c1SourceEffect,
      c1AppliedClone, List.foldl, List.filter, List.flatMap, List.find?]
    decide

/-- C1 (amended): the per-source-aura addition path of `addRemoveEffect`
does filter on existing origins — every actor uuid it queues for
addition belongs to a nearby actor holding no effect whose origin is the
source effect uuid.  (The scene-delta toAdd path gives no such
guarantee; see the counterexample.) -/
theorem addRemoveEffect_addition_filters (scene : Scene) (mainToken : TokenDoc)
    (sourceEffect : Effect) :
    ∀ u ∈ (addRemoveEffectPerSource scene mainToken sourceEffect).1,
      ∃ a : Actor, a.uuid = u ∧
        (∃ t ∈ getNearbyTokens scene mainToken sourceEffect.system.distance none
            sourceEffect.system.disposition sourceEffect.system.collisionTypes,
          t.actor = some a) ∧
        ∀ e ∈ a.effects, e.origin ≠ some sourceEffect.uuid := by
  intro u hu
  simp only [addRemoveEffectPerSource] at hu
  by_cases hne : (getNearbyTokens scene mainToken sourceEffect.system.distance none
      sourceEffect.system.disposition sourceEffect.system.collisionTypes).isEmpty
  · rw [if_pos hne] at hu
    simp at hu
  · rw [if_neg hne] at hu
    rw [List.mem_map] at hu
    obtain ⟨a, ha, hau⟩ := hu
    rw [List.mem_filter] at ha
    obtain ⟨hmem, hnone⟩ := ha
    rw [List.mem_filterMap] at hmem
    obtain ⟨t, htmem, hta⟩ := hmem
    rw [List.mem_filter] at htmem
    refine ⟨a, hau, ⟨t, htmem.1, hta⟩, ?_⟩
    intro e he horig
    have : a.effects.find? (fun e => e.origin == some sourceEffect.uuid) ≠ none := by
      intro hfind
      rw [List.find?_eq_none] at hfind
      exact hfind e he (by simp [horig])
    rw [Option.isNone_iff_eq_none] at hnone
    exact this hnone

/-- C1 witness for the amended theorem: on the C8 scene the candidate
actor is queued for addition and indeed holds no effect with the source
origin. -/
theorem addRemoveEffect_addition_filters_witness :
    "Actor.cand" ∈ (addRemoveEffectPerSource c8Scene c8SourceToken c8BrokenEffect).1 ∧
    ∃ a : Actor, a.uuid = "Actor.cand" ∧
      (∃ t ∈ getNearbyTokens c8Scene c8SourceToken c8BrokenEffect.system.distance none
          c8BrokenEffect.system.disposition c8BrokenEffect.system.collisionTypes,
        t.actor = some a) ∧
      ∀ e ∈ a.effects, e.origin ≠ some c8BrokenEffect.uuid := by
  have hmem : "Actor.cand" ∈ (addRemoveEffectPerSource c8Scene c8SourceToken c8BrokenEffect).1 := by
    norm_num [addRemoveEffectPerSource, getNearbyTokens, getGenerallyWithin,
      getTokenToTokenDistance, getDistance, executeScriptB, jsTrim, EDist.minList, EDist.min,
      EDist.sub, EDist.leq, originElevation, List.filter, List.filterMap, List.find?,
      List.flatMap, c8Scene, c5Grid, c8SourceToken, c8CandidateToken, c8SourceActor,
      c8CandidateActor, c8BrokenEffect]
  exact ⟨hmem, addRemoveEffect_addition_filters c8Scene c8SourceToken c8BrokenEffect
    "Actor.cand" hmem⟩

/-- Every apply-map entry of `removeAndReplaceAuras` is a replacement
for a losing target token of one of the removed effects. -/
theorem removeAndReplace_good (scene : Scene) (effects : List Effect) :
    ∀ au us, (au, us) ∈ (removeAndReplaceAuras scene effects).2 → ∀ u ∈ us,
      ReplacementEntry scene effects au u := by
  have h : (removeAndReplaceAuras scene effects).2
      = (effectToRemovedMap scene effects).foldl (fun acc g =>
        g.2.foldl (fun acc2 targetToken =>
          match replacementFor scene
              (sortByCmp (bestCmp scene g.1) (allEmitting scene g.1)) g.1 targetToken with
          | none => acc2
          | some effUuid =>
            match targetToken.actor with
            | none => acc2
            | some a => pushAssoc acc2 a.uuid [effUuid]) acc) [] := rfl
  rw [h]
  exact outer_fold_good scene effects _ (fun g hg => hg) []
    (by intro au us hmem; cases hmem)

/-- C4 (amended): (1) for every resolved name the emitter list is sorted
into a permutation of the discovered emitters, with pairwise
non-increasing tie-break scores (auras with no best formula or no
resolvable source effect sort after formula-bearing ones, formula totals
descend) and pairs not strictly inverted by score keep discovery order
(stability); (2) every apply-map entry is a replacement produced by
walking the sorted list for a losing target token occurrence — at most
one replacement per occurrence of a losing token per name (an actor
losing several same-named effects, or owning several tokens, may be
assigned several; see the counterexample). -/
theorem bestOf_arbitration (scene : Scene) (effects : List Effect) :
    (∀ name : String,
      (sortByCmp (bestCmp scene name) (allEmitting scene name)).Perm
        (allEmitting scene name) ∧
      (sortByCmp (bestCmp scene name) (allEmitting scene name)).Pairwise
        (fun u v => bestScore scene name v ≤ bestScore scene name u) ∧
      (∀ a b : TokenDoc, [a, b].Sublist (allEmitting scene name) →
        ¬ bestScore scene name a < bestScore scene name b →
        [a, b].Sublist (sortByCmp (bestCmp scene name) (allEmitting scene name)))) ∧
    (∀ au us, (au, us) ∈ (removeAndReplaceAuras scene effects).2 →
      ∀ u ∈ us, ReplacementEntry scene effects au u) := by
  constructor
  · intro name
    exact ⟨sortByCmp_perm _ _, sortByCmp_pairwise scene name _,
      fun a b hab hs => sortByCmp_stable scene name _ a b hab hs⟩
  · exact removeAndReplace_good scene effects

/-- The formula-bearing emitter effect for the C4 world. -/
def c4SourceB1 : Effect where
  uuid := "Effect.B1"
  name := "Blessed"
  type := "auraeffects.aura"
  disabled := false
  isSuppressed := false
  origin := none
  fromAura := false
  modifiesActor := true
  targetIsActor := true
  parentActorUuid := some "Actor.EM1"
  system := ⟨none, 30, 0, [], "", some "1d4", false, false⟩

/-- A formula-less emitter effect for the C4 world. -/
def c4SourceB2 : Effect where
  uuid := "Effect.B2"
  name := "Blessed"
  type := "auraeffects.aura"
  disabled := false
  isSuppressed := false
  origin := none
  fromAura := false
  modifiesActor := true
  targetIsActor := true
  parentActorUuid := some "Actor.EM2"
  system := ⟨none, 30, 0, [], "", none, false, false⟩

/-- A second formula-less emitter effect for the C4 world. -/
def c4SourceB3 : Effect where
  uuid := "Effect.B3"
  name := "Blessed"
  type := "auraeffects.aura"
  disabled := false
  isSuppressed := false
  origin := none
  fromAura := false
  modifiesActor := true
  targetIsActor := true
  parentActorUuid := some "Actor.EM3"
  system := ⟨none, 30, 0, [], "", none, false, false⟩

/-- The C4 losing actor (its two same-named applied effects are being
removed; the scene is read after their deletion). -/
def c4TargetActor : Actor where
  uuid := "Actor.TA"
  name := "Loser"
  rollData := "rd-TA"
  effects := []
  appliedEffects := []
  allApplicableEffects := []

/-- The first C4 emitter actor (formula-bearing). -/
def c4ActorEM1 : Actor where
  uuid := "Actor.EM1"
  name := "Emitter1"
  rollData := "rd-EM1"
  effects := [c4SourceB1]
  appliedEffects := [c4SourceB1]
  allApplicableEffects := [c4SourceB1]

/-- The second C4 emitter actor (formula-less). -/
def c4ActorEM2 : Actor where
  uuid := "Actor.EM2"
  name := "Emitter2"
  rollData := "rd-EM2"
  effects := [c4SourceB2]
  appliedEffects := [c4SourceB2]
  allApplicableEffects := [c4SourceB2]

/-- The third C4 emitter actor (formula-less). -/
def c4ActorEM3 : Actor where
  uuid := "Actor.EM3"
  name := "Emitter3"
  rollData := "rd-EM3"
  effects := [c4SourceB3]
  appliedEffects := [c4SourceB3]
  allApplicableEffects := [c4SourceB3]

/-- The C4 losing token. -/
def c4TokenTA : TokenDoc where
  id := "tokTA"
  actor := some c4TargetActor
  disposition := 1
  x := 0
  y := 0
  elevation := 0
  width := 1
  hidden := false
  center := ⟨0, 0⟩
  centerPoint := fun _ => ⟨0, 0⟩
  occupiedOffsets := fun _ => [⟨0, 0⟩]
  externalRadius := 0
  movement := ⟨"stopped", none, ⟨0, 0, 0⟩⟩

/-- The first C4 emitter token. -/
def c4TokenEM1 : TokenDoc where
  id := "tokEM1"
  actor := some c4ActorEM1
  disposition := 1
  x := 0
  y := 0
  elevation := 0
  width := 1
  hidden := false
  center := ⟨0, 0⟩
  centerPoint := fun _ => ⟨0, 0⟩
  occupiedOffsets := fun _ => [⟨0, 0⟩]
  externalRadius := 0
  movement := ⟨"stopped", none, ⟨0, 0, 0⟩⟩

/-- The second C4 emitter token. -/
def c4TokenEM2 : TokenDoc where
  id := "tokEM2"
  actor := some c4ActorEM2
  disposition := 1
  x := 0
  y := 0
  elevation := 0
  width := 1
  hidden := false
  center := ⟨0, 0⟩
  centerPoint := fun _ => ⟨0, 0⟩
  occupiedOffsets := fun _ => [⟨0, 0⟩]
  externalRadius := 0
  movement := ⟨"stopped", none, ⟨0, 0, 0⟩⟩

/-- The third C4 emitter token. -/
def c4TokenEM3 : TokenDoc where
  id := "tokEM3"
  actor := some c4ActorEM3
  disposition := 1
  x := 0
  y := 0
  elevation := 0
  width := 1
  hidden := false
  center := ⟨0, 0⟩
  centerPoint := fun _ => ⟨0, 0⟩
  occupiedOffsets := fun _ => [⟨0, 0⟩]
  externalRadius := 0
  movement := ⟨"stopped", none, ⟨0, 0, 0⟩⟩

/-- The C4 scene: the loser plus three emitters of "Blessed", in
discovery order EM2, EM3, EM1; the roll evaluator gives the formula
"1d4" a total of 3. -/
def c4Scene : Scene where
  grid := c1Grid
  tokens := [c4TokenTA, c4TokenEM2, c4TokenEM3, c4TokenEM1]
  testCollision := fun _ _ _ => false
  scriptCompile := fun _ => none
  scriptEval := fun _ _ _ _ _ => .ok true
  rollTotal := fun f _ => if f == "1d4" then 3 else 0
  resolveEffect := fun _ => none
  quadtree := fun _ => [c4TokenTA, c4TokenEM2, c4TokenEM3, c4TokenEM1]

/-- The first removed same-named applied effect of the losing actor. -/
def c4Removed1 : Effect where
  uuid := "Effect.X1"
  name := "Blessed"
  type := "auraeffects.aura"
  disabled := false
  isSuppressed := false
  origin := some "Effect.gone1"
  fromAura := true
  modifiesActor := true
  targetIsActor := true
  parentActorUuid := some "Actor.TA"
  system := ⟨none, 30, 0, [], "", none, false, false⟩

/-- The second removed same-named applied effect of the losing actor. -/
def c4Removed2 : Effect where
  uuid := "Effect.X2"
  name := "Blessed"
  type := "auraeffects.aura"
  disabled := false
  isSuppressed := false
  origin := some "Effect.gone2"
  fromAura := true
  modifiesActor := true
  targetIsActor := true
  parentActorUuid := some "Actor.TA"
  system := ⟨none, 30, 0, [], "", none, false, false⟩

/-- C4 counterexample: an actor that lost two same-named effects is
assigned two replacements — the best-of walk runs once per losing token
occurrence per name, so the same winning effect uuid is queued twice for
the same actor, contradicting at-most-one-replacement-per-losing-actor
(and non-stacking single application). -/
theorem bestOf_duplicate_counterexample :
    (removeAndReplaceAuras c4Scene [c4Removed1, c4Removed2]).2
      = [("Actor.TA", ["Effect.B1", "Effect.B1"])] := by
  norm_num [removeAndReplaceAuras, effectToRemovedMap, getActiveTokens, pushAssoc,
    allEmitting, getAllAuraEffects, sortByCmp, insertCmp, bestCmp, getSourceEffect,
    resolvedName, jsTrim, String.isEmpty_iff, rollDataOf, replacementFor, List.findSome?,
    executeScriptB,
    getTokenToTokenDistance, getDistance, originElevation, EDist.qlt, EDist.minList,
    EDist.min, EDist.sub, List.partition_eq_filter_filter, List.foldl, List.filter,
    List.flatMap, List.find?, List.map, c4Scene, c1Grid, c4TokenTA, c4TokenEM1,
    c4TokenEM2, c4TokenEM3, c4TargetActor, c4ActorEM1, c4ActorEM2, c4ActorEM3,
    c4SourceB1, c4SourceB2, c4SourceB3, c4Removed1, c4Removed2]
  decide

/-- C4 witness: on the C4 world, the two formula-less emitters (equal
scores) keep discovery order in the sorted list, and the recorded
replacement entry for the losing actor is the formula-bearing winner. -/
theorem bestOf_arbitration_witness :
    [c4TokenEM2, c4TokenEM3].Sublist
      (sortByCmp (bestCmp c4Scene "Blessed") (allEmitting c4Scene "Blessed")) ∧
    ReplacementEntry c4Scene [c4Removed1, c4Removed2] "Actor.TA" "Effect.B1" := by
  have h := bestOf_arbitration c4Scene [c4Removed1, c4Removed2]
  constructor
  · apply (h.1 "Blessed").2.2 c4TokenEM2 c4TokenEM3
    · have he : allEmitting c4Scene "Blessed" = [c4TokenEM2, c4TokenEM3, c4TokenEM1] := by
        norm_num [allEmitting, getAllAuraEffects, resolvedName, jsTrim, String.isEmpty_iff,
          List.partition_eq_filter_filter, List.filter, c4Scene, c4TokenTA, c4TokenEM1,
          c4TokenEM2, c4TokenEM3, c4TargetActor, c4ActorEM1, c4ActorEM2, c4ActorEM3,
          c4SourceB1, c4SourceB2, c4SourceB3]
      rw [he]
      exact List.Sublist.cons₂ _ (List.Sublist.cons₂ _ (List.nil_sublist _))
    · have h2 : bestScore c4Scene "Blessed" c4TokenEM2
          = ((⊥ : WithBot ℚ) : WithBot (WithBot ℚ)) := by
        norm_num [bestScore, getSourceEffect, resolvedName, jsTrim, String.isEmpty_iff,
          List.find?, c4TokenEM2, c4ActorEM2, c4SourceB2]
      have h3 : bestScore c4Scene "Blessed" c4TokenEM3
          = ((⊥ : WithBot ℚ) : WithBot (WithBot ℚ)) := by
        norm_num [bestScore, getSourceEffect, resolvedName, jsTrim, String.isEmpty_iff,
          List.find?, c4TokenEM3, c4ActorEM3, c4SourceB3]
      rw [h2, h3]
      exact lt_irrefl _
  · apply h.2 "Actor.TA" ["Effect.B1", "Effect.B1"] _ "Effect.B1"
      (List.mem_cons_self _ _)
    have hmap : (removeAndReplaceAuras c4Scene [c4Removed1, c4Removed2]).2
        = [("Actor.TA", ["Effect.B1", "Effect.B1"])] := by
      norm_num [removeAndReplaceAuras, effectToRemovedMap, getActiveTokens, pushAssoc,
        allEmitting, getAllAuraEffects, sortByCmp, insertCmp, bestCmp, getSourceEffect,
        resolvedName, jsTrim, String.isEmpty_iff, rollDataOf, replacementFor, List.findSome?,
        executeScriptB,
        getTokenToTokenDistance, getDistance, originElevation, EDist.qlt, EDist.minList,
        EDist.min, EDist.sub, List.partition_eq_filter_filter, List.foldl, List.filter,
        List.flatMap, List.find?, List.map, c4Scene, c1Grid, c4TokenTA, c4TokenEM1,
        c4TokenEM2, c4TokenEM3, c4TargetActor, c4ActorEM1, c4ActorEM2, c4ActorEM3,
        c4SourceB1, c4SourceB2, c4SourceB3, c4Removed1, c4Removed2]
      decide
    rw [hmap]
    exact List.mem_singleton.mpr rfl

/-- Actor-set deduplication by document identity (JavaScript `new Set`
of actor references), keeping insertion order. -/
def dedupActors (l : List Actor) : List Actor :=
  l.foldl (fun acc a => if acc.any (fun b => b.uuid == a.uuid) then acc else acc ++ [a]) []

/-- `isFinalMovementComplete(token)`: movement stopped, or no pending
distance and position equal to the destination in x, y and elevation. -/
def isFinalMovementComplete (token : TokenDoc) : Bool :=
  token.movement.state == "stopped" ||
  ((match token.movement.pending with | none => true | some d => d == 0) &&
   token.movement.destination.x == token.x &&
   token.movement.destination.y == token.y &&
   token.movement.destination.elevation == token.elevation)

/-- The in-range actor set of a source aura sampled at the movement
origin (no predicate filter, as in the pre-move sampling of
`moveToken`). -/
def preMoveActors (scene : Scene) (token : TokenDoc) (movementOrigin : TokenPos)
    (eff : Effect) : List Actor :=
  dedupActors ((getNearbyTokens scene token eff.system.distance (some movementOrigin)
    eff.system.disposition eff.system.collisionTypes).filterMap (fun t => t.actor))

/-- The in-range actor set of a source aura sampled at the current
(end-of-leg) position, filtered by the conditional script. -/
def postMoveActors (scene : Scene) (token : TokenDoc) (eff : Effect) : List Actor :=
  dedupActors (((getNearbyTokens scene token eff.system.distance none
    eff.system.disposition eff.system.collisionTypes).filter (fun t =>
      executeScriptB scene token t eff)).filterMap (fun t => t.actor))

/-- Lingering applied effects from now-inactive source auras, collected
scene-wide in `moveToken`. -/
def lingeringInactive (scene : Scene) (inactiveUuids : List String) : List Effect :=
  scene.tokens.flatMap (fun t =>
    match t.actor with
    | some a => a.appliedEffects.filter (fun e =>
        match e.origin with
        | some o => inactiveUuids.contains o
        | none => false)
    | none => [])

/-- The applied effects deleted for one source aura on a movement leg:
the origin-matching effect of every actor in the origin-position range
set but not the destination-position range set. -/
def perAuraToDelete (scene : Scene) (token : TokenDoc) (movementOrigin : TokenPos)
    (eff : Effect) : List Effect :=
  ((preMoveActors scene token movementOrigin eff).filter (fun a =>
    !(postMoveActors scene token eff).any (fun b => b.uuid == a.uuid))).filterMap
    (fun a => a.effects.find? (fun e => e.origin == some eff.uuid))

/-- The outputs of one `moveToken` invocation: deletions and best-of
replacement applies from the per-aura passes, the final-segment
additions of the per-aura passes, and the deletions, replacement applies
and final-segment additions of the scene-delta pass. -/
structure MoveOutcome where
  perAuraDeletes : List String
  perAuraReplacementApplies : List (String × List String)
  finalApplies : List (String × List String)
  deltaDeletes : List String
  deltaReplacementApplies : List (String × List String)
  deltaApplies : List (String × List String)

/-- The `moveToken` handler (auras.mjs lines 205-266) as a function of a
single world snapshot: per active source aura, remove the
origin-minus-destination set and (only when the final movement segment
is complete) queue additions for newly-in-range actors not already
holding the origin; then recompute the scene delta for the moved token,
remove its stale effects and (only when final) apply its additions.  A
token without an actor returns early. -/
def moveTokenModel (scene : Scene) (token : TokenDoc) (movementOrigin : TokenPos) :
    Option MoveOutcome :=
  match token.actor with
  | none => none
  | some actor =>
    let auraPair := getAllAuraEffects (some actor)
    let inactiveUuids := auraPair.2.map (fun e => e.uuid)
    let additionalDeletion := lingeringInactive scene inactiveUuids
    let final := isFinalMovementComplete token
    let perAura := auraPair.1.foldl (fun acc eff =>
      if eff.system.distance == 0 then acc else
      let rr := removeAndReplaceAuras scene
        (perAuraToDelete scene token movementOrigin eff ++ additionalDeletion)
      let acc1 : List String × List (String × List String) × List (String × List String) :=
        (acc.1 ++ rr.1, acc.2.1 ++ rr.2, acc.2.2)
      if final then
        let toAddTo := ((postMoveActors scene token eff).filter (fun a =>
          !(a.uuid == actor.uuid) &&
          (a.effects.find? (fun e => e.origin == some eff.uuid)).isNone)).map
          (fun a => a.uuid)
        (acc1.1, acc1.2.1, toAddTo.foldl (fun m au => pushAssoc m au [eff.uuid]) acc1.2.2)
      else acc1)
      (([], [], []) : List String × List (String × List String) × List (String × List String))
    let delta := getChangingSceneAurasCore scene token actor
    let deltaRR := if delta.1.isEmpty
      then (([], []) : List String × List (String × List String))
      else removeAndReplaceAuras scene delta.1
    let deltaApp := if !delta.2.isEmpty && final
      then [(actor.uuid, delta.2.map (fun e => e.uuid))] else []
    some ⟨perAura.1, perAura.2.1, perAura.2.2, deltaRR.1, deltaRR.2, deltaApp⟩

/-- The deletions issued by the per-aura passes of a non-final
`moveToken` leg. -/
def moveAuraDeletes (scene : Scene) (token : TokenDoc) (movementOrigin : TokenPos)
    (actor : Actor) : List String :=
  (getAllAuraEffects (some actor)).1.flatMap (fun eff =>
    if eff.system.distance == 0 then [] else
    (removeAndReplaceAuras scene (perAuraToDelete scene token movementOrigin eff ++
      lingeringInactive scene
        ((getAllAuraEffects (some actor)).2.map (fun e => e.uuid)))).1)

/-- The best-of replacement applies issued by the per-aura passes of a
`moveToken` leg. -/
def moveAuraReplacements (scene : Scene) (token : TokenDoc) (movementOrigin : TokenPos)
    (actor : Actor) : List (String × List String) :=
  (getAllAuraEffects (some actor)).1.flatMap (fun eff =>
    if eff.system.distance == 0 then [] else
    (removeAndReplaceAuras scene (perAuraToDelete scene token movementOrigin eff ++
      lingeringInactive scene
        ((getAllAuraEffects (some actor)).2.map (fun e => e.uuid)))).2)

/-- The scene-delta removal pass of `moveToken`. -/
def moveDeltaRR (scene : Scene) (token : TokenDoc) (actor : Actor) :
    List String × List (String × List String) :=
  if (getChangingSceneAurasCore scene token actor).1.isEmpty then ([], [])
  else removeAndReplaceAuras scene (getChangingSceneAurasCore scene token actor).1

/-- The per-aura fold of `moveToken` on a non-final leg appends the
per-aura deletions and replacement applies and never touches the
additions component. -/
theorem moveFold_eq (scene : Scene) (token : TokenDoc) (movementOrigin : TokenPos)
    (additional : List Effect) (l : List Effect)
    (acc : List String × List (String × List String) × List (String × List String)) :
    l.foldl (fun acc eff =>
      if eff.system.distance == 0 then acc else
      (acc.1 ++ (removeAndReplaceAuras scene
          (perAuraToDelete scene token movementOrigin eff ++ additional)).1,
       acc.2.1 ++ (removeAndReplaceAuras scene
          (perAuraToDelete scene token movementOrigin eff ++ additional)).2,
       acc.2.2)) acc
    = (acc.1 ++ l.flatMap (fun eff => if eff.system.distance == 0 then [] else
        (removeAndReplaceAuras scene
          (perAuraToDelete scene token movementOrigin eff ++ additional)).1),
       acc.2.1 ++ l.flatMap (fun eff => if eff.system.distance == 0 then [] else
        (removeAndReplaceAuras scene
          (perAuraToDelete scene token movementOrigin eff ++ additional)).2),
       acc.2.2) := by
  induction l generalizing acc with
  | nil => simp
  | cons eff rest ih =>
    simp only [List.foldl_cons, List.flatMap_cons]
    by_cases h : (eff.system.distance == 0 : Bool)
    · rw [if_pos h, ih]
      simp [h]
    · rw [if_neg h, ih]
      simp [h, List.append_assoc]

/-- `Array.prototype.filter` with a predicate that can raise: the first
raised error aborts the whole filter (and with it the calling
handler). -/
def jsFilterM {α : Type} (p : α → Except String Bool) : List α → Except String (List α)
  | [] => .ok []
  | x :: xs =>
    match p x with
    | .error e => .error e
    | .ok b =>
      match jsFilterM p xs with
      | .error e => .error e
      | .ok rest => .ok (if b then x :: rest else rest)

/-- The end-of-leg range sampling of `moveToken` with the script calls
of its `.filter(t => executeScript(token, t, effect))` made fallible:
the first uncaught script error aborts the handler. -/
def postMoveActorsM (scene : Scene) (token : TokenDoc) (eff : Effect) :
    Except String (List Actor) :=
  match jsFilterM (fun t => execScriptM scene token t eff)
      (getNearbyTokens scene token eff.system.distance none
        eff.system.disposition eff.system.collisionTypes) with
  | .error e => .error e
  | .ok ts => .ok (dedupActors (ts.filterMap (fun t => t.actor)))

/-- The removal condition of the scene delta scan with its script call
made fallible; the JavaScript `||` short-circuits, so the script only
runs when the distance check passes. -/
def auraFailsM (scene : Scene) (sourceToken token : TokenDoc) (currEffect : Effect) :
    Except String Bool :=
  if EDist.qlt currEffect.system.distance
      (getTokenToTokenDistance scene sourceToken token none currEffect.system.collisionTypes)
    then .ok true
    else match execScriptM scene sourceToken token currEffect with
      | .error e => .error e
      | .ok b => .ok !b

/-- The inner per-aura loop of the `getChangingSceneAuras` fold with
fallible script calls. -/
def gcsaInnerM (scene : Scene) (token sourceToken : TokenDoc)
    (currentAppliedAuras : List Effect) :
    List Effect → List Effect × List Effect → Except String (List Effect × List Effect)
  | [], acc => .ok acc
  | currEffect :: rest, acc =>
    match auraFailsM scene sourceToken token currEffect with
    | .error e => .error e
    | .ok fails =>
      gcsaInnerM scene token sourceToken currentAppliedAuras rest
        (if fails then
          match currentAppliedAuras.find? (fun e => e.origin == some currEffect.uuid) with
          | some currentlyApplied => (acc.1 ++ [currentlyApplied], acc.2)
          | none => acc
        else (acc.1, acc.2 ++ [currEffect]))

/-- One step of the `getChangingSceneAuras` scene fold with fallible
script calls. -/
def gcsaStepM (scene : Scene) (token : TokenDoc) (actor : Actor)
    (currentAppliedAuras : List Effect) (acc : List Effect × List Effect)
    (sourceToken : TokenDoc) : Except String (List Effect × List Effect) :=
  if actorIs sourceToken.actor actor then .ok acc else
  let disposition := token.disposition * sourceToken.disposition
  let auraPair := getAllAuraEffects sourceToken.actor
  let activeAuraEffects := auraPair.1
  let inactiveAuraEffects := auraPair.2
  let currentlyAppliedToRemove := currentAppliedAuras.filter (fun appliedEffect =>
    inactiveAuraEffects.any (fun inactiveEffect =>
      appliedEffect.origin == some inactiveEffect.uuid))
  let toRemove := if inactiveAuraEffects.isEmpty then acc.1
    else acc.1 ++ currentlyAppliedToRemove
  let auraEffects := activeAuraEffects.filter (fun e =>
    e.system.disposition == 0 || e.system.disposition == disposition)
  if auraEffects.isEmpty then .ok (toRemove, acc.2) else
  gcsaInnerM scene token sourceToken currentAppliedAuras auraEffects (toRemove, acc.2)

/-- The scene fold of `getChangingSceneAuras` with fallible script
calls. -/
def gcsaFoldM (scene : Scene) (token : TokenDoc) (actor : Actor)
    (currentAppliedAuras : List Effect) :
    List TokenDoc → List Effect × List Effect → Except String (List Effect × List Effect)
  | [], acc => .ok acc
  | st :: rest, acc =>
    match gcsaStepM scene token actor currentAppliedAuras acc st with
    | .error e => .error e
    | .ok acc2 => gcsaFoldM scene token actor currentAppliedAuras rest acc2

/-- `getChangingSceneAuras` with fallible script calls: the first
uncaught script error aborts the calling handler before the delta is
returned. -/
def gcsaCoreM (scene : Scene) (token : TokenDoc) (actor : Actor) :
    Except String (List Effect × List Effect) :=
  let currentAppliedAuras := actor.appliedEffects.filter (fun e => e.fromAura)
  match gcsaFoldM scene token actor currentAppliedAuras scene.tokens ([], []) with
  | .error e => .error e
  | .ok scan => .ok (scan.1 ++ staleApplied scene actor, scan.2)

/-- The sorted-emitter walk of `removeAndReplaceAuras` for one losing
target with fallible script calls; the guard short-circuits, so the
script only runs when the distance check passes. -/
def replacementForM (scene : Scene) (effectName : String) (targetToken : TokenDoc) :
    List TokenDoc → Except String (Option String)
  | [] => .ok none
  | sourceToken :: rest =>
    match getSourceEffect sourceToken effectName with
    | none => replacementForM scene effectName targetToken rest
    | some effect =>
      if EDist.qlt effect.system.distance (getTokenToTokenDistance scene sourceToken
          targetToken none effect.system.collisionTypes)
        then replacementForM scene effectName targetToken rest
        else match execScriptM scene sourceToken targetToken effect with
          | .error e => .error e
          | .ok b =>
            if !b then replacementForM scene effectName targetToken rest
            else if !effect.system.applyToSelf && sourceToken.id == targetToken.id
              then replacementForM scene effectName targetToken rest
              else .ok (some effect.uuid)

/-- The per-target loop of the best-of walk with fallible script
calls. -/
def rrInnerM (scene : Scene) (sorted : List TokenDoc) (effectName : String) :
    List TokenDoc → List (String × List String) → Except String (List (String × List String))
  | [], acc2 => .ok acc2
  | targetToken :: rest, acc2 =>
    match replacementForM scene effectName targetToken sorted with
    | .error e => .error e
    | .ok none => rrInnerM scene sorted effectName rest acc2
    | .ok (some effUuid) =>
      rrInnerM scene sorted effectName rest
        (match targetToken.actor with
        | none => acc2
        | some a => pushAssoc acc2 a.uuid [effUuid])

/-- The per-name loop of the best-of walk with fallible script calls. -/
def rrOuterM (scene : Scene) :
    List (String × List TokenDoc) → List (String × List String) →
    Except String (List (String × List String))
  | [], acc => .ok acc
  | g :: rest, acc =>
    match rrInnerM scene (sortByCmp (bestCmp scene g.1) (allEmitting scene g.1)) g.1 g.2
        acc with
    | .error e => .error e
    | .ok acc2 => rrOuterM scene rest acc2

/-- `removeAndReplaceAuras` with fallible script calls.  The deletion
query is issued before the best-of walk runs, so an uncaught script
error in the walk leaves the deletions issued: the error carries them. -/
def removeAndReplaceAurasM (scene : Scene) (effects : List Effect) :
    Except (List String × String) (List String × List (String × List String)) :=
  let groups := effectToRemovedMap scene effects
  let deletedUuids := effects.map (fun e => e.uuid)
  match rrOuterM scene groups [] with
  | .error e => .error (deletedUuids, e)
  | .ok applyMap => .ok (deletedUuids, applyMap)

/-- An uncaught script error aborting `moveToken`: the deletions and
applies issued through the Mutation Authority before the throw, and the
error itself.  Everything after the throw is skipped. -/
structure MoveAbort where
  issuedDeletes : List String
  issuedApplies : List (String × List String)
  error : String
deriving DecidableEq, Repr

/-- One iteration of the per-aura loop of `moveToken` with fallible
script calls, in source statement order: the end-of-leg range sampling
runs (and can throw) before the deletions of the iteration are issued,
and the per-aura `removeAndReplaceAuras` issues its deletions before its
own walk can throw. -/
def perAuraStepM (scene : Scene) (token : TokenDoc) (movementOrigin : TokenPos)
    (actor : Actor) (additionalDeletion : List Effect) (final : Bool)
    (acc : List String × List (String × List String) × List (String × List String))
    (eff : Effect) :
    Except MoveAbort (List String × List (String × List String) ×
      List (String × List String)) :=
  if eff.system.distance == 0 then .ok acc else
  match postMoveActorsM scene token eff with
  | .error e => .error ⟨acc.1, acc.2.1, e⟩
  | .ok post =>
    let toDelete := ((preMoveActors scene token movementOrigin eff).filter (fun a =>
      !post.any (fun b => b.uuid == a.uuid))).filterMap
      (fun a => a.effects.find? (fun e => e.origin == some eff.uuid))
    match removeAndReplaceAurasM scene (toDelete ++ additionalDeletion) with
    | .error (dels, e) => .error ⟨acc.1 ++ dels, acc.2.1, e⟩
    | .ok rr =>
      let acc1 : List String × List (String × List String) × List (String × List String) :=
        (acc.1 ++ rr.1, acc.2.1 ++ rr.2, acc.2.2)
      if final then
        let toAddTo := (post.filter (fun a =>
          !(a.uuid == actor.uuid) &&
          (a.effects.find? (fun e => e.origin == some eff.uuid)).isNone)).map
          (fun a => a.uuid)
        .ok (acc1.1, acc1.2.1, toAddTo.foldl (fun m au => pushAssoc m au [eff.uuid]) acc1.2.2)
      else .ok acc1

/-- The per-aura loop of `moveToken` with fallible script calls. -/
def perAuraFoldM (scene : Scene) (token : TokenDoc) (movementOrigin : TokenPos)
    (actor : Actor) (additionalDeletion : List Effect) (final : Bool) :
    List Effect →
    List String × List (String × List String) × List (String × List String) →
    Except MoveAbort (List String × List (String × List String) ×
      List (String × List String))
  | [], acc => .ok acc
  | eff :: rest, acc =>
    match perAuraStepM scene token movementOrigin actor additionalDeletion final acc eff with
    | .error ab => .error ab
    | .ok acc2 => perAuraFoldM scene token movementOrigin actor additionalDeletion final
        rest acc2

/-- The `moveToken` handler with its uncaught script errors made
explicit, in source statement order: the per-aura loop (whose range
sampling and best-of walks call `executeScript`), the final-segment
per-aura apply query, the scene-delta recomputation (which calls
`executeScript` again), the scene-delta removals and the final-segment
delta apply.  An uncaught error anywhere aborts the handler, carrying
exactly the mutations issued before the throw; a token without an actor
returns early. -/
def moveTokenModelE (scene : Scene) (token : TokenDoc) (movementOrigin : TokenPos) :
    Except MoveAbort (Option MoveOutcome) :=
  match token.actor with
  | none => .ok none
  | some actor =>
    let auraPair := getAllAuraEffects (some actor)
    let inactiveUuids := auraPair.2.map (fun e => e.uuid)
    let additionalDeletion := lingeringInactive scene inactiveUuids
    let final := isFinalMovementComplete token
    match perAuraFoldM scene token movementOrigin actor additionalDeletion final
        auraPair.1 ([], [], []) with
    | .error ab => .error ab
    | .ok perAura =>
      match gcsaCoreM scene token actor with
      | .error e => .error ⟨perAura.1, perAura.2.1 ++ perAura.2.2, e⟩
      | .ok delta =>
        match (if delta.1.isEmpty
            then Except.ok (([], []) : List String × List (String × List String))
            else removeAndReplaceAurasM scene delta.1) with
        | .error (dels, e) => .error ⟨perAura.1 ++ dels, perAura.2.1 ++ perAura.2.2, e⟩
        | .ok deltaRR =>
          let deltaApp := if !delta.2.isEmpty && final
            then [(actor.uuid, delta.2.map (fun e => e.uuid))] else []
          .ok (some ⟨perAura.1, perAura.2.1, perAura.2.2, deltaRR.1, deltaRR.2, deltaApp⟩)

/-- A fallible filter whose predicate never raises on the list is the
plain filter. -/
theorem jsFilterM_ok {α : Type} (p : α → Except String Bool) (q : α → Bool) (l : List α)
    (h : ∀ x ∈ l, p x = .ok (q x)) : jsFilterM p l = .ok (l.filter q) := by
  induction l with
  | nil => rfl
  | cons x xs ih =>
    simp only [jsFilterM, h x (List.mem_cons_self x xs),
      ih (fun y hy => h y (List.mem_cons_of_mem x hy)), List.filter_cons]

/-- With no uncaught script error, the fallible end-of-leg sampling
returns the pure one. -/
theorem postMoveActorsM_ok (scene : Scene) (token : TokenDoc) (actor : Actor)
    (h1 : token.actor = some actor) (hscript : ScriptsTotal scene) (eff : Effect) :
    postMoveActorsM scene token eff = .ok (postMoveActors scene token eff) := by
  have hf : jsFilterM (fun t => execScriptM scene token t eff)
      (getNearbyTokens scene token eff.system.distance none
        eff.system.disposition eff.system.collisionTypes)
      = .ok ((getNearbyTokens scene token eff.system.distance none
        eff.system.disposition eff.system.collisionTypes).filter (fun t =>
          executeScriptB scene token t eff)) := by
    apply jsFilterM_ok
    intro t ht
    obtain ⟨a, ha⟩ := mem_getNearbyTokens_actor scene token eff.system.distance none
      eff.system.disposition eff.system.collisionTypes t ht
    exact hscript token t eff a actor ha h1
  simp only [postMoveActorsM, hf]
  rfl

/-- With no uncaught script error, the fallible removal condition of the
scene delta scan returns the pure one. -/
theorem auraFailsM_ok (scene : Scene) (sourceToken token : TokenDoc) (a sa : Actor)
    (ha : token.actor = some a) (hsa : sourceToken.actor = some sa)
    (hscript : ScriptsTotal scene) (currEffect : Effect) :
    auraFailsM scene sourceToken token currEffect
      = .ok (auraFails scene sourceToken token currEffect) := by
  by_cases hq : (EDist.qlt currEffect.system.distance
      (getTokenToTokenDistance scene sourceToken token none
        currEffect.system.collisionTypes) : Bool)
  · simp [auraFailsM, auraFails, hq]
  · simp only [auraFailsM, auraFails, hq, Bool.false_eq_true, if_false, ite_false,
      Bool.false_or]
    rw [hscript sourceToken token currEffect a sa ha hsa]

/-- With no uncaught script error, the fallible inner per-aura loop of
the scene delta scan is its pure fold. -/
theorem gcsaInnerM_ok (scene : Scene) (token sourceToken : TokenDoc)
    (currentAppliedAuras : List Effect) (l : List Effect) (acc : List Effect × List Effect)
    (h : ∀ currEffect ∈ l, auraFailsM scene sourceToken token currEffect
      = .ok (auraFails scene sourceToken token currEffect)) :
    gcsaInnerM scene token sourceToken currentAppliedAuras l acc
      = .ok (l.foldl (fun acc2 currEffect =>
          if auraFails scene sourceToken token currEffect then
            match currentAppliedAuras.find? (fun e => e.origin == some currEffect.uuid) with
            | some currentlyApplied => (acc2.1 ++ [currentlyApplied], acc2.2)
            | none => acc2
          else (acc2.1, acc2.2 ++ [currEffect])) acc) := by
  induction l generalizing acc with
  | nil => rfl
  | cons c cs ih =>
    simp only [gcsaInnerM, h c (List.mem_cons_self c cs), List.foldl_cons]
    exact ih _ (fun x hx => h x (List.mem_cons_of_mem c hx))

/-- With no uncaught script error, the fallible scene-fold step of the
delta scan is the pure one. -/
theorem gcsaStepM_ok (scene : Scene) (token : TokenDoc) (actor : Actor)
    (currentAppliedAuras : List Effect) (a : Actor) (h1 : token.actor = some a)
    (hscript : ScriptsTotal scene) (acc : List Effect × List Effect)
    (sourceToken : TokenDoc) :
    gcsaStepM scene token actor currentAppliedAuras acc sourceToken
      = .ok (gcsaStep scene token actor currentAppliedAuras acc sourceToken) := by
  simp only [gcsaStepM, gcsaStep]
  by_cases hai : (actorIs sourceToken.actor actor : Bool)
  · simp [hai]
  · simp only [hai, Bool.false_eq_true, if_false, ite_false]
    cases hsa : sourceToken.actor with
    | none => simp [getAllAuraEffects]
    | some sa =>
      by_cases he : (((getAllAuraEffects (some sa)).1.filter (fun e =>
          e.system.disposition == 0 ||
          e.system.disposition == token.disposition * sourceToken.disposition)).isEmpty :
          Bool)
      · simp [he]
      · simp only [he, Bool.false_eq_true, if_false, ite_false]
        exact gcsaInnerM_ok scene token sourceToken currentAppliedAuras _ _
          (fun c _ => auraFailsM_ok scene sourceToken token a sa h1 hsa hscript c)

/-- With no uncaught script error, the fallible scene fold of the delta
scan is the pure one. -/
theorem gcsaFoldM_ok (scene : Scene) (token : TokenDoc) (actor : Actor)
    (currentAppliedAuras : List Effect) (a : Actor) (h1 : token.actor = some a)
    (hscript : ScriptsTotal scene) (l : List TokenDoc) (acc : List Effect × List Effect) :
    gcsaFoldM scene token actor currentAppliedAuras l acc
      = .ok (l.foldl (gcsaStep scene token actor currentAppliedAuras) acc) := by
  induction l generalizing acc with
  | nil => rfl
  | cons st rest ih =>
    simp only [gcsaFoldM,
      gcsaStepM_ok scene token actor currentAppliedAuras a h1 hscript acc st,
      List.foldl_cons]
    exact ih _

/-- With no uncaught script error, the fallible scene delta is the pure
one. -/
theorem gcsaCoreM_ok (scene : Scene) (token : TokenDoc) (actor : Actor) (a : Actor)
    (h1 : token.actor = some a) (hscript : ScriptsTotal scene) :
    gcsaCoreM scene token actor = .ok (getChangingSceneAurasCore scene token actor) := by
  simp only [gcsaCoreM, getChangingSceneAurasCore,
    gcsaFoldM_ok scene token actor _ a h1 hscript]

/-- A found source effect implies the emitting token carries an actor
(the lookup dereferences it). -/
theorem getSourceEffect_some_actor (t : TokenDoc) (n : String) (e : Effect)
    (h : getSourceEffect t n = some e) : ∃ a, t.actor = some a := by
  cases ht : t.actor with
  | none => simp [getSourceEffect, ht] at h
  | some a => exact ⟨a, rfl⟩

/-- Unfolding of the pure best-of walk on a cons cell, with the guard of
the source spelled out. -/
theorem replacementFor_cons (scene : Scene) (sourceToken : TokenDoc) (rest : List TokenDoc)
    (effectName : String) (targetToken : TokenDoc) :
    replacementFor scene (sourceToken :: rest) effectName targetToken
      = match getSourceEffect sourceToken effectName with
        | none => replacementFor scene rest effectName targetToken
        | some effect =>
          if EDist.qlt effect.system.distance (getTokenToTokenDistance scene sourceToken
              targetToken none effect.system.collisionTypes)
              || !executeScriptB scene sourceToken targetToken effect
              || (!effect.system.applyToSelf && sourceToken.id == targetToken.id)
            then replacementFor scene rest effectName targetToken
            else some effect.uuid := by
  simp only [replacementFor, List.findSome?_cons]
  cases getSourceEffect sourceToken effectName with
  | none => rfl
  | some effect =>
    by_cases hcond : (EDist.qlt effect.system.distance (getTokenToTokenDistance scene
        sourceToken targetToken none effect.system.collisionTypes)
        || !executeScriptB scene sourceToken targetToken effect
        || (!effect.system.applyToSelf && sourceToken.id == targetToken.id) : Bool)
    · simp [hcond]
    · simp [hcond]

/-- With no uncaught script error and an actor-bearing target, the
fallible best-of walk is the pure one. -/
theorem replacementForM_ok (scene : Scene) (effectName : String) (targetToken : TokenDoc)
    (ta : Actor) (hta : targetToken.actor = some ta) (hscript : ScriptsTotal scene)
    (l : List TokenDoc) :
    replacementForM scene effectName targetToken l
      = .ok (replacementFor scene l effectName targetToken) := by
  induction l with
  | nil => rfl
  | cons sourceToken rest ih =>
    rw [replacementFor_cons]
    cases hse : getSourceEffect sourceToken effectName with
    | none =>
      simp only [replacementForM, hse]
      exact ih
    | some effect =>
      obtain ⟨sa, hsa⟩ := getSourceEffect_some_actor sourceToken effectName effect hse
      simp only [replacementForM, hse]
      by_cases hq : (EDist.qlt effect.system.distance (getTokenToTokenDistance scene
          sourceToken targetToken none effect.system.collisionTypes) : Bool)
      · simp only [hq, if_true, ite_true, Bool.true_or]
        exact ih
      · simp only [hq, Bool.false_eq_true, if_false, ite_false, Bool.false_or]
        rw [hscript sourceToken targetToken effect ta sa hta hsa]
        by_cases hb : (executeScriptB scene sourceToken targetToken effect : Bool)
        · simp only [hb, Bool.not_true, Bool.false_eq_true, if_false, ite_false]
          by_cases hself : (!effect.system.applyToSelf &&
              sourceToken.id == targetToken.id : Bool)
          · simp only [hself, if_true, ite_true, Bool.or_true]
            exact ih
          · simp only [hself, Bool.false_eq_true, if_false, ite_false, Bool.or_false]
        · simp only [hb, Bool.not_false, if_true, ite_true, Bool.true_or, Bool.or_true]
          exact ih

/-- Tokens found through `getActiveTokens` carry the looked-up actor. -/
theorem mem_getActiveTokens_actor (scene : Scene) (au : Option String) (t : TokenDoc)
    (h : t ∈ getActiveTokens scene au) : ∃ a, t.actor = some a := by
  simp only [getActiveTokens, List.mem_filter] at h
  obtain ⟨-, hcond⟩ := h
  cases ht : t.actor with
  | none =>
    rw [ht] at hcond
    cases au <;> simp at hcond
  | some a => exact ⟨a, rfl⟩

/-- A value invariant is preserved by `pushAssoc`. -/
theorem pushAssoc_values {β : Type} (P : β → Prop) (m : List (String × List β)) (k : String)
    (vs : List β) (hm : ∀ g ∈ m, ∀ v ∈ g.2, P v) (hvs : ∀ v ∈ vs, P v) :
    ∀ g ∈ pushAssoc m k vs, ∀ v ∈ g.2, P v := by
  induction m with
  | nil =>
    intro g hg
    simp only [pushAssoc, List.mem_singleton] at hg
    subst hg
    exact hvs
  | cons p rest ih =>
    obtain ⟨k0, v0⟩ := p
    intro g hg
    simp only [pushAssoc] at hg
    by_cases hk : (k0 == k) = true
    · rw [if_pos hk] at hg
      rcases List.mem_cons.mp hg with hg | hg
      · subst hg
        intro v hv
        rcases List.mem_append.mp hv with hv | hv
        · exact hm (k0, v0) (List.mem_cons_self _ _) v hv
        · exact hvs v hv
      · exact hm g (List.mem_cons_of_mem _ hg)
    · rw [if_neg hk] at hg
      rcases List.mem_cons.mp hg with hg | hg
      · subst hg
        exact hm (k0, v0) (List.mem_cons_self _ _)
      · exact ih (fun g0 hg0 => hm g0 (List.mem_cons_of_mem _ hg0)) g hg

/-- Every token in the removed-from map carries an actor: the values are
unions of `getActiveTokens` results. -/
theorem effectToRemovedMap_actors (scene : Scene) (effects : List Effect) :
    ∀ g ∈ effectToRemovedMap scene effects, ∀ t ∈ g.2, ∃ a, t.actor = some a := by
  have main : ∀ (l : List Effect) (acc : List (String × List TokenDoc)),
      (∀ g ∈ acc, ∀ t ∈ g.2, ∃ a, t.actor = some a) →
      ∀ g ∈ l.foldl (fun acc effect =>
          pushAssoc acc effect.name (getActiveTokens scene effect.parentActorUuid)) acc,
        ∀ t ∈ g.2, ∃ a, t.actor = some a := by
    intro l
    induction l with
    | nil => intro acc hacc; exact hacc
    | cons e es ih =>
      intro acc hacc
      simp only [List.foldl_cons]
      exact ih _ (pushAssoc_values _ acc e.name _ hacc
        (fun t ht => mem_getActiveTokens_actor scene e.parentActorUuid t ht))
  exact main effects [] (fun g hg => absurd hg (List.not_mem_nil g))

/-- With no uncaught script error and actor-bearing targets, the
fallible per-target loop of the best-of walk is its pure fold. -/
theorem rrInnerM_ok (scene : Scene) (sorted : List TokenDoc) (effectName : String)
    (hscript : ScriptsTotal scene) (targets : List TokenDoc)
    (hts : ∀ t ∈ targets, ∃ a, t.actor = some a) (acc2 : List (String × List String)) :
    rrInnerM scene sorted effectName targets acc2
      = .ok (targets.foldl (fun acc2 targetToken =>
          match replacementFor scene sorted effectName targetToken with
          | none => acc2
          | some effUuid =>
            match targetToken.actor with
            | none => acc2
            | some a => pushAssoc acc2 a.uuid [effUuid]) acc2) := by
  induction targets generalizing acc2 with
  | nil => rfl
  | cons t rest ih =>
    obtain ⟨ta, hta⟩ := hts t (List.mem_cons_self t rest)
    simp only [rrInnerM, replacementForM_ok scene effectName t ta hta hscript sorted,
      List.foldl_cons]
    cases replacementFor scene sorted effectName t with
    | none => exact ih (fun x hx => hts x (List.mem_cons_of_mem t hx)) _
    | some u => exact ih (fun x hx => hts x (List.mem_cons_of_mem t hx)) _

/-- With no uncaught script error and actor-bearing targets, the
fallible per-name loop of the best-of walk is its pure fold. -/
theorem rrOuterM_ok (scene : Scene) (hscript : ScriptsTotal scene)
    (groups : List (String × List TokenDoc))
    (hg : ∀ g ∈ groups, ∀ t ∈ g.2, ∃ a, t.actor = some a)
    (acc : List (String × List String)) :
    rrOuterM scene groups acc
      = .ok (groups.foldl (fun acc g =>
          let sorted := sortByCmp (bestCmp scene g.1) (allEmitting scene g.1)
          g.2.foldl (fun acc2 targetToken =>
            match replacementFor scene sorted g.1 targetToken with
            | none => acc2
            | some effUuid =>
              match targetToken.actor with
              | none => acc2
              | some a => pushAssoc acc2 a.uuid [effUuid]) acc) acc) := by
  induction groups generalizing acc with
  | nil => rfl
  | cons g rest ih =>
    simp only [rrOuterM,
      rrInnerM_ok scene (sortByCmp (bestCmp scene g.1) (allEmitting scene g.1)) g.1 hscript
        g.2 (fun t ht => hg g (List.mem_cons_self g rest) t ht) acc,
      List.foldl_cons]
    exact ih (fun g0 hg0 => hg g0 (List.mem_cons_of_mem g hg0)) _

/-- With no uncaught script error, the fallible `removeAndReplaceAuras`
completes and returns the pure deletions and apply map. -/
theorem removeAndReplaceAurasM_ok (scene : Scene) (hscript : ScriptsTotal scene)
    (effects : List Effect) :
    removeAndReplaceAurasM scene effects = .ok (removeAndReplaceAuras scene effects) := by
  simp only [removeAndReplaceAurasM, removeAndReplaceAuras,
    rrOuterM_ok scene hscript (effectToRemovedMap scene effects)
      (effectToRemovedMap_actors scene effects) []]

/-- With no uncaught script error, one fallible per-aura iteration of
`moveToken` is the pure fold step. -/
theorem perAuraStepM_ok (scene : Scene) (token : TokenDoc) (movementOrigin : TokenPos)
    (actor : Actor) (additionalDeletion : List Effect) (final : Bool)
    (h1 : token.actor = some actor) (hscript : ScriptsTotal scene)
    (acc : List String × List (String × List String) × List (String × List String))
    (eff : Effect) :
    perAuraStepM scene token movementOrigin actor additionalDeletion final acc eff
      = .ok (if eff.system.distance == 0 then acc else
          let rr := removeAndReplaceAuras scene
            (perAuraToDelete scene token movementOrigin eff ++ additionalDeletion)
          let acc1 : List String × List (String × List String) × List (String × List String) :=
            (acc.1 ++ rr.1, acc.2.1 ++ rr.2, acc.2.2)
          if final then
            let toAddTo := ((postMoveActors scene token eff).filter (fun a =>
              !(a.uuid == actor.uuid) &&
              (a.effects.find? (fun e => e.origin == some eff.uuid)).isNone)).map
              (fun a => a.uuid)
            (acc1.1, acc1.2.1, toAddTo.foldl (fun m au => pushAssoc m au [eff.uuid]) acc1.2.2)
          else acc1) := by
  by_cases hr : (eff.system.distance == 0 : Bool)
  · simp [perAuraStepM, hr]
  · simp only [perAuraStepM, hr, Bool.false_eq_true, if_false, ite_false,
      postMoveActorsM_ok scene token actor h1 hscript eff,
      removeAndReplaceAurasM_ok scene hscript]
    cases final <;> simp [perAuraToDelete]

/-- With no uncaught script error, the fallible per-aura loop of
`moveToken` is its pure fold. -/
theorem perAuraFoldM_ok (scene : Scene) (token : TokenDoc) (movementOrigin : TokenPos)
    (actor : Actor) (additionalDeletion : List Effect) (final : Bool)
    (h1 : token.actor = some actor) (hscript : ScriptsTotal scene) (l : List Effect)
    (acc : List String × List (String × List String) × List (String × List String)) :
    perAuraFoldM scene token movementOrigin actor additionalDeletion final l acc
      = .ok (l.foldl (fun acc eff =>
          if eff.system.distance == 0 then acc else
          let rr := removeAndReplaceAuras scene
            (perAuraToDelete scene token movementOrigin eff ++ additionalDeletion)
          let acc1 : List String × List (String × List String) × List (String × List String) :=
            (acc.1 ++ rr.1, acc.2.1 ++ rr.2, acc.2.2)
          if final then
            let toAddTo := ((postMoveActors scene token eff).filter (fun a =>
              !(a.uuid == actor.uuid) &&
              (a.effects.find? (fun e => e.origin == some eff.uuid)).isNone)).map
              (fun a => a.uuid)
            (acc1.1, acc1.2.1, toAddTo.foldl (fun m au => pushAssoc m au [eff.uuid]) acc1.2.2)
          else acc1) acc) := by
  induction l generalizing acc with
  | nil => rfl
  | cons eff rest ih =>
    simp only [perAuraFoldM,
      perAuraStepM_ok scene token movementOrigin actor additionalDeletion final h1 hscript
        acc eff,
      List.foldl_cons]
    exact ih _

/-- With no uncaught script error, the fallible `moveToken` completes
and returns the pure single-snapshot outcome. -/
theorem moveTokenModelE_ok (scene : Scene) (token : TokenDoc) (movementOrigin : TokenPos)
    (actor : Actor) (h1 : token.actor = some actor) (hscript : ScriptsTotal scene) :
    moveTokenModelE scene token movementOrigin
      = .ok (moveTokenModel scene token movementOrigin) := by
  simp only [moveTokenModelE, moveTokenModel, h1,
    perAuraFoldM_ok scene token movementOrigin actor _ _ h1 hscript,
    gcsaCoreM_ok scene token actor actor h1 hscript]
  by_cases hie : ((getChangingSceneAurasCore scene token actor).1.isEmpty : Bool)
  · simp [hie]
  · simp [hie, removeAndReplaceAurasM_ok scene hscript]

/-- C3 (amended): provided no conditional script raises an uncaught
error (`ScriptsTotal`, violated only by a compile-broken script or a
missing actor), a `moveToken` leg runs to completion, and on a leg that
is not the final segment (movement not stopped, and pending distance or
position not yet at destination) the handler issues no range additions
at all — neither the per-aura addition maps nor the scene-delta
additions; every actor in the origin-position in-range set but not in
the destination-position in-range set has its origin-matching applied
effect deleted on that leg; and the only mid-leg applies are best-of
replacements for actors that just lost a same-named effect.  Without the
script proviso the handler can throw before deleting anything (see the
counterexample). -/
theorem moveToken_atomicity (scene : Scene) (token : TokenDoc) (movementOrigin : TokenPos)
    (actor : Actor) (h1 : token.actor = some actor)
    (hnf : isFinalMovementComplete token = false)
    (hscript : ScriptsTotal scene) :
    moveTokenModelE scene token movementOrigin
      = Except.ok (moveTokenModel scene token movementOrigin) ∧
    ∃ out, moveTokenModel scene token movementOrigin = some out ∧
      out.finalApplies = [] ∧
      out.deltaApplies = [] ∧
      (∀ eff ∈ (getAllAuraEffects (some actor)).1, (eff.system.distance == 0) = false →
        ∀ a ∈ preMoveActors scene token movementOrigin eff,
          (∀ b ∈ postMoveActors scene token eff, b.uuid ≠ a.uuid) →
          ∀ ae, a.effects.find? (fun e => e.origin == some eff.uuid) = some ae →
            ae.uuid ∈ out.perAuraDeletes) ∧
      (∀ au us, (au, us) ∈ out.perAuraReplacementApplies → ∀ u ∈ us,
        ∃ eff ∈ (getAllAuraEffects (some actor)).1,
          ReplacementEntry scene
            (perAuraToDelete scene token movementOrigin eff ++ lingeringInactive scene
              ((getAllAuraEffects (some actor)).2.map (fun e => e.uuid))) au u) ∧
      (∀ au us, (au, us) ∈ out.deltaReplacementApplies → ∀ u ∈ us,
        ReplacementEntry scene (getChangingSceneAurasCore scene token actor).1 au u) := by
  refine ⟨moveTokenModelE_ok scene token movementOrigin actor h1 hscript, ?_⟩
  have hm : moveTokenModel scene token movementOrigin = some
      ⟨moveAuraDeletes scene token movementOrigin actor,
       moveAuraReplacements scene token movementOrigin actor, [],
       (moveDeltaRR scene token actor).1, (moveDeltaRR scene token actor).2, []⟩ := by
    simp only [moveTokenModel, h1, hnf, Bool.false_eq_true, if_false, ite_false,
      Bool.and_false]
    rw [moveFold_eq]
    simp only [List.append_nil, List.nil_append]
    rfl
  refine ⟨_, hm, rfl, rfl, ?_, ?_, ?_⟩
  · intro eff heff hr a ha hpost ae hae
    show ae.uuid ∈ moveAuraDeletes scene token movementOrigin actor
    rw [moveAuraDeletes]
    rw [List.mem_flatMap]
    refine ⟨eff, heff, ?_⟩
    rw [if_neg (by simp [hr])]
    have hd : (removeAndReplaceAuras scene
        (perAuraToDelete scene token movementOrigin eff ++ lingeringInactive scene
          ((getAllAuraEffects (some actor)).2.map (fun e => e.uuid)))).1
        = (perAuraToDelete scene token movementOrigin eff ++ lingeringInactive scene
          ((getAllAuraEffects (some actor)).2.map (fun e => e.uuid))).map
          (fun e => e.uuid) := rfl
    rw [hd]
    apply List.mem_map_of_mem
    apply List.mem_append_left
    rw [perAuraToDelete, List.mem_filterMap]
    refine ⟨a, ?_, hae⟩
    rw [List.mem_filter]
    refine ⟨ha, ?_⟩
    have : (postMoveActors scene token eff).any (fun b => b.uuid == a.uuid) = false := by
      rw [List.any_eq_false]
      intro b hb
      simp only [beq_iff_eq]
      exact hpost b hb
    rw [this]
    rfl
  · intro au us hmem u hu
    rw [show MoveOutcome.perAuraReplacementApplies
        ⟨moveAuraDeletes scene token movementOrigin actor,
         moveAuraReplacements scene token movementOrigin actor, [],
         (moveDeltaRR scene token actor).1, (moveDeltaRR scene token actor).2, []⟩
        = moveAuraReplacements scene token movementOrigin actor from rfl] at hmem
    rw [moveAuraReplacements, List.mem_flatMap] at hmem
    obtain ⟨eff, heff, hin⟩ := hmem
    by_cases hr : (eff.system.distance == 0 : Bool)
    · rw [if_pos hr] at hin
      cases hin
    · rw [if_neg hr] at hin
      exact ⟨eff, heff, removeAndReplace_good scene _ au us hin u hu⟩
  · intro au us hmem u hu
    rw [show MoveOutcome.deltaReplacementApplies
        ⟨moveAuraDeletes scene token movementOrigin actor,
         moveAuraReplacements scene token movementOrigin actor, [],
         (moveDeltaRR scene token actor).1, (moveDeltaRR scene token actor).2, []⟩
        = (moveDeltaRR scene token actor).2 from rfl] at hmem
    rw [moveDeltaRR] at hmem
    by_cases he : ((getChangingSceneAurasCore scene token actor).1.isEmpty : Bool)
    · rw [if_pos he] at hmem
      cases hmem
    · rw [if_neg he] at hmem
      exact removeAndReplace_good scene _ au us hmem u hu

/-- The moving-token aura for the C3 witness. -/
def c3EffM : Effect where
  uuid := "Effect.M"
  name := "March"
  type := "auraeffects.aura"
  disabled := false
  isSuppressed := false
  origin := none
  fromAura := false
  modifiesActor := true
  targetIsActor := true
  parentActorUuid := some "Actor.M"
  system := ⟨none, 5, 0, [], "", none, false, false⟩

/-- The applied clone on the bystander being left behind. -/
def c3Clone : Effect where
  uuid := "Effect.M.applied"
  name := "March"
  type := "auraeffects.aura"
  disabled := false
  isSuppressed := false
  origin := some "Effect.M"
  fromAura := true
  modifiesActor := true
  targetIsActor := true
  parentActorUuid := some "Actor.B"
  system := ⟨none, 5, 0, [], "", none, false, false⟩

/-- The moving actor. -/
def c3ActorM : Actor where
  uuid := "Actor.M"
  name := "Mover"
  rollData := "rd-M"
  effects := [c3EffM]
  appliedEffects := [c3EffM]
  allApplicableEffects := [c3EffM]

/-- The bystander actor holding the applied clone. -/
def c3ActorB : Actor where
  uuid := "Actor.B"
  name := "Bystander"
  rollData := "rd-B"
  effects := [c3Clone]
  appliedEffects := [c3Clone]
  allApplicableEffects := [c3Clone]

/-- The moving token: mid-move at (100, 0) with movement origin (0, 0)
and destination (200, 0), pending distance 3. -/
def c3TokenM : TokenDoc where
  id := "tokM"
  actor := some c3ActorM
  disposition := 1
  x := 100
  y := 0
  elevation := 0
  width := 1
  hidden := false
  center := ⟨100, 0⟩
  centerPoint := fun o => match o with
    | some p => ⟨p.x, p.y⟩
    | none => ⟨100, 0⟩
  occupiedOffsets := fun o => match o with
    | some p => [⟨p.x, p.y⟩]
    | none => [⟨100, 0⟩]
  externalRadius := 0
  movement := ⟨"moving", some 3, ⟨200, 0, 0⟩⟩

/-- The bystander token at the movement origin. -/
def c3TokenB : TokenDoc where
  id := "tokB"
  actor := some c3ActorB
  disposition := 1
  x := 0
  y := 0
  elevation := 0
  width := 1
  hidden := false
  center := ⟨0, 0⟩
  centerPoint := fun _ => ⟨0, 0⟩
  occupiedOffsets := fun _ => [⟨0, 0⟩]
  externalRadius := 0
  movement := ⟨"stopped", none, ⟨0, 0, 0⟩⟩

/-- A gridded unit grid with taxicab path measurement for the C3
witness. -/
def c3Grid : Grid where
  isGridless := false
  size := 1
  distance := 1
  getCenterPoint := fun p => p
  measurePath := fun a b => |b.x - a.x| + |b.y - a.y| + |b.elevation - a.elevation|

/-- The C3 scene: the mover mid-leg and the bystander it left behind. -/
def c3Scene : Scene where
  grid := c3Grid
  tokens := [c3TokenM, c3TokenB]
  testCollision := fun _ _ _ => false
  scriptCompile := fun _ => none
  scriptEval := fun _ _ _ _ _ => .ok true
  rollTotal := fun _ _ => 0
  resolveEffect := fun u => if u == "Effect.M" then some c3EffM else none
  quadtree := fun _ => [c3TokenM, c3TokenB]

/-- C3 witness: mid-move (pending distance, away from destination) the
handler issues no additions and deletes the clone of the actor left
behind. -/
theorem moveToken_atomicity_witness :
    ∃ out, moveTokenModel c3Scene c3TokenM ⟨0, 0, 0⟩ = some out ∧
      out.finalApplies = [] ∧ out.deltaApplies = [] ∧
      c3Clone.uuid ∈ out.perAuraDeletes := by
  obtain ⟨-, out, hout, hfin, hdel, hcov, -, -⟩ :=
    moveToken_atomicity c3Scene c3TokenM ⟨0, 0, 0⟩ c3ActorM rfl (by decide)
      (scriptsTotal_of_compileFree c3Scene (fun s => rfl))
  refine ⟨out, hout, hfin, hdel, ?_⟩
  have hpre : preMoveActors c3Scene c3TokenM ⟨0, 0, 0⟩ c3EffM = [c3ActorB] := by
    norm_num [preMoveActors, dedupActors, getNearbyTokens, getGenerallyWithin,
      getTokenToTokenDistance, getDistance, originElevation, EDist.leq, EDist.minList,
      EDist.min, EDist.sub, List.filterMap, List.filter, List.foldl, List.flatMap,
      c3Scene, c3Grid, c3TokenM, c3TokenB, c3ActorM, c3ActorB, c3EffM, c3Clone]
  have hpost : postMoveActors c3Scene c3TokenM c3EffM = [c3ActorM] := by
    norm_num [postMoveActors, dedupActors, getNearbyTokens, getGenerallyWithin,
      getTokenToTokenDistance, getDistance, originElevation, executeScriptB, jsTrim,
      String.isEmpty_iff, EDist.leq, EDist.minList, EDist.min, EDist.sub, List.filterMap,
      List.filter, List.foldl, List.flatMap, c3Scene, c3Grid, c3TokenM, c3TokenB,
      c3ActorM, c3ActorB, c3EffM, c3Clone]
  exact hcov c3EffM (by decide) (by decide) c3ActorB
    (by rw [hpre]; exact List.mem_singleton.mpr rfl)
    (by rw [hpost]; intro b hb; rw [List.mem_singleton] at hb; rw [hb]; decide)
    c3Clone (by decide)

/-- The moving-token aura for the C3 counterexample: same geometry as
the witness world, but with a conditional script that does not
compile. -/
def c3xEffM : Effect where
  uuid := "Effect.MX"
  name := "March X"
  type := "auraeffects.aura"
  disabled := false
  isSuppressed := false
  origin := none
  fromAura := false
  modifiesActor := true
  targetIsActor := true
  parentActorUuid := some "Actor.MX"
  system := ⟨some "syntax(", 5, 0, [], "", none, false, false⟩

/-- The applied clone on the bystander being left behind. -/
def c3xClone : Effect where
  uuid := "Effect.MX.applied"
  name := "March X"
  type := "auraeffects.aura"
  disabled := false
  isSuppressed := false
  origin := some "Effect.MX"
  fromAura := true
  modifiesActor := true
  targetIsActor := true
  parentActorUuid := some "Actor.BX"
  system := ⟨some "syntax(", 5, 0, [], "", none, false, false⟩

/-- The moving actor of the counterexample world. -/
def c3xActorM : Actor where
  uuid := "Actor.MX"
  name := "Mover X"
  rollData := "rd-MX"
  effects := [c3xEffM]
  appliedEffects := [c3xEffM]
  allApplicableEffects := [c3xEffM]

/-- The bystander actor holding the applied clone. -/
def c3xActorB : Actor where
  uuid := "Actor.BX"
  name := "Bystander X"
  rollData := "rd-BX"
  effects := [c3xClone]
  appliedEffects := [c3xClone]
  allApplicableEffects := [c3xClone]

/-- The moving token mid-leg at (100, 0), from origin (0, 0). -/
def c3xTokenM : TokenDoc where
  id := "tokMX"
  actor := some c3xActorM
  disposition := 1
  x := 100
  y := 0
  elevation := 0
  width := 1
  hidden := false
  center := ⟨100, 0⟩
  centerPoint := fun o => match o with
    | some p => ⟨p.x, p.y⟩
    | none => ⟨100, 0⟩
  occupiedOffsets := fun o => match o with
    | some p => [⟨p.x, p.y⟩]
    | none => [⟨100, 0⟩]
  externalRadius := 0
  movement := ⟨"moving", some 3, ⟨200, 0, 0⟩⟩

/-- The bystander token at the movement origin. -/
def c3xTokenB : TokenDoc where
  id := "tokBX"
  actor := some c3xActorB
  disposition := 1
  x := 0
  y := 0
  elevation := 0
  width := 1
  hidden := false
  center := ⟨0, 0⟩
  centerPoint := fun _ => ⟨0, 0⟩
  occupiedOffsets := fun _ => [⟨0, 0⟩]
  externalRadius := 0
  movement := ⟨"stopped", none, ⟨0, 0, 0⟩⟩

/-- The C3 counterexample scene: the `Function(...)` compile raises on
the malformed script. -/
def c3xScene : Scene where
  grid := c3Grid
  tokens := [c3xTokenM, c3xTokenB]
  testCollision := fun _ _ _ => false
  scriptCompile := fun s =>
    if s = "syntax(" then some "SyntaxError: Unexpected token" else none
  scriptEval := fun _ _ _ _ _ => .ok true
  rollTotal := fun _ _ => 0
  resolveEffect := fun u => if u == "Effect.MX" then some c3xEffM else none
  quadtree := fun _ => [c3xTokenM, c3xTokenB]

/-- C3 counterexample: the bystander left the aura's range on this leg
and still holds the applied clone, so the claim requires its removal;
but the compile-broken conditional script makes the end-of-leg range
sampling throw before any deletion is issued — the handler aborts with
no mutations at all. -/
theorem moveToken_throw_counterexample :
    moveTokenModelE c3xScene c3xTokenM ⟨0, 0, 0⟩
      = Except.error ⟨[], [], "SyntaxError: Unexpected token"⟩ ∧
    preMoveActors c3xScene c3xTokenM ⟨0, 0, 0⟩ c3xEffM = [c3xActorB] ∧
    postMoveActors c3xScene c3xTokenM c3xEffM = [c3xActorM] ∧
    c3xActorB.effects.find? (fun e => e.origin == some c3xEffM.uuid) = some c3xClone := by
  have htrim : ((jsTrim "syntax(").isEmpty) = false := by decide
  refine ⟨?_, ?_, ?_, by decide⟩
  · norm_num [htrim, moveTokenModelE, perAuraFoldM, perAuraStepM, postMoveActorsM, jsFilterM,
      execScriptM, executeScript, getAllAuraEffects,
      getNearbyTokens, getGenerallyWithin, getTokenToTokenDistance, getDistance,
      originElevation, EDist.leq, EDist.minList, EDist.min, EDist.sub, List.filterMap,
      List.filter, List.foldl, List.flatMap, lingeringInactive, isFinalMovementComplete,
      c3xScene, c3Grid, c3xTokenM, c3xTokenB, c3xActorM, c3xActorB, c3xEffM, c3xClone]
  · norm_num [preMoveActors, dedupActors, getNearbyTokens, getGenerallyWithin,
      getTokenToTokenDistance, getDistance, originElevation, EDist.leq, EDist.minList,
      EDist.min, EDist.sub, List.filterMap, List.filter, List.foldl, List.flatMap,
      c3xScene, c3Grid, c3xTokenM, c3xTokenB, c3xActorM, c3xActorB, c3xEffM, c3xClone]
  · norm_num [htrim, postMoveActors, dedupActors, getNearbyTokens, getGenerallyWithin,
      getTokenToTokenDistance, getDistance, originElevation, executeScriptB,
      EDist.leq, EDist.minList, EDist.min, EDist.sub, List.filterMap,
      List.filter, List.foldl, List.flatMap, c3xScene, c3Grid, c3xTokenM, c3xTokenB,
      c3xActorM, c3xActorB, c3xEffM, c3xClone]

/-- The collection step shared by `deleteActiveEffect` and the disable
branch of `updateActiveEffect`: every aura-derived applied effect with
the given origin on scene actors other than the source actor. -/
def collectAppliedOfOrigin (scene : Scene) (actor : Actor) (effect : Effect) : List Effect :=
  ((scene.tokens.filter (fun t =>
      match t.actor with
      | some a => !(a.uuid == actor.uuid)
      | none => false)).flatMap (fun t =>
      match t.actor with
      | some a => a.appliedEffects
      | none => [])).filter (fun e => e.fromAura && e.origin == some effect.uuid)

/-- C7 (amended): when an aura source effect is deleted or disabled,
every aura-derived applied effect with that origin on every actor other
than the source actor is deleted by the handler, and independently any
applied effect whose origin fails to resolve or resolves to a disabled
or suppressed source is queued for removal by the scene-delta safety net
of its holder.  (The emitting actor itself is excluded by the handlers;
see the counterexample.) -/
theorem sourceInvalidation_cleanup (scene : Scene) (actor : Actor) (effect : Effect) :
    (∀ t ∈ scene.tokens, ∀ a : Actor, t.actor = some a → (a.uuid == actor.uuid) = false →
      ∀ e ∈ a.appliedEffects, e.fromAura = true → e.origin = some effect.uuid →
        e.uuid ∈ (removeAndReplaceAuras scene
          (collectAppliedOfOrigin scene actor effect)).1) ∧
    (∀ (tok : TokenDoc) (holder : Actor), ∀ e ∈ holder.appliedEffects,
      e.fromAura = true →
      (e.origin.bind scene.resolveEffect = none ∨
        ∃ s, e.origin.bind scene.resolveEffect = some s ∧
          (s.disabled = true ∨ s.isSuppressed = true)) →
      e ∈ (getChangingSceneAurasCore scene tok holder).1) := by
  constructor
  · intro t ht a hta hne e he hfa horig
    have hd : (removeAndReplaceAuras scene (collectAppliedOfOrigin scene actor effect)).1
        = (collectAppliedOfOrigin scene actor effect).map (fun e => e.uuid) := rfl
    rw [hd]
    apply List.mem_map_of_mem
    rw [collectAppliedOfOrigin, List.mem_filter]
    constructor
    · rw [List.mem_flatMap]
      refine ⟨t, ?_, ?_⟩
      · rw [List.mem_filter]
        refine ⟨ht, ?_⟩
        rw [hta]
        show (!(a.uuid == actor.uuid)) = true
        rw [hne]
        rfl
      · rw [hta]
        exact he
    · rw [hfa, horig]
      simp
  · intro tok holder e he hfa hstale
    apply mem_toRemove_of_stale
    rw [staleApplied, List.mem_filter]
    refine ⟨he, ?_⟩
    rw [hfa]
    rcases hstale with hnone | ⟨s, hs, hbad⟩
    · rw [hnone]
      simp
    · rw [hs]
      rcases hbad with hb | hb <;> simp [hb]

/-- The C7 source effect whose deletion triggers the cleanup. -/
def c7SourceEffect : Effect where
  uuid := "Effect.E"
  name := "Shield"
  type := "auraeffects.aura"
  disabled := false
  isSuppressed := false
  origin := none
  fromAura := false
  modifiesActor := true
  targetIsActor := true
  parentActorUuid := some "Actor.S7"
  system := ⟨none, 30, 0, [], "", none, true, false⟩

/-- The apply-to-self clone of the C7 source effect sitting on the
emitting actor itself. -/
def c7SelfClone : Effect where
  uuid := "Effect.E.self"
  name := "Shield"
  type := "auraeffects.aura"
  disabled := false
  isSuppressed := false
  origin := some "Effect.E"
  fromAura := true
  modifiesActor := true
  targetIsActor := true
  parentActorUuid := some "Actor.S7"
  system := ⟨none, 30, 0, [], "", none, true, false⟩

/-- The clone of the C7 source effect on the other actor. -/
def c7OtherClone : Effect where
  uuid := "Effect.E.other"
  name := "Shield"
  type := "auraeffects.aura"
  disabled := false
  isSuppressed := false
  origin := some "Effect.E"
  fromAura := true
  modifiesActor := true
  targetIsActor := true
  parentActorUuid := some "Actor.T7"
  system := ⟨none, 30, 0, [], "", none, true, false⟩

/-- An orphaned applied effect (unresolvable origin) on the other
actor, exercising the safety net. -/
def c7Orphan : Effect where
  uuid := "Effect.orphan"
  name := "Gone"
  type := "auraeffects.aura"
  disabled := false
  isSuppressed := false
  origin := some "Effect.vanished"
  fromAura := true
  modifiesActor := true
  targetIsActor := true
  parentActorUuid := some "Actor.T7"
  system := ⟨none, 30, 0, [], "", none, false, false⟩

/-- The C7 emitting actor, holding the source effect and its
apply-to-self clone. -/
def c7SourceActor : Actor where
  uuid := "Actor.S7"
  name := "Paladin"
  rollData := "rd-S7"
  effects := [c7SourceEffect, c7SelfClone]
  appliedEffects := [c7SourceEffect, c7SelfClone]
  allApplicableEffects := [c7SourceEffect, c7SelfClone]

/-- The C7 other actor, holding a clone and an orphaned applied
effect. -/
def c7OtherActor : Actor where
  uuid := "Actor.T7"
  name := "Ally"
  rollData := "rd-T7"
  effects := [c7OtherClone, c7Orphan]
  appliedEffects := [c7OtherClone, c7Orphan]
  allApplicableEffects := [c7OtherClone, c7Orphan]

/-- The C7 emitting token. -/
def c7TokenS : TokenDoc where
  id := "tokS7"
  actor := some c7SourceActor
  disposition := 1
  x := 0
  y := 0
  elevation := 0
  width := 1
  hidden := false
  center := ⟨0, 0⟩
  centerPoint := fun _ => ⟨0, 0⟩
  occupiedOffsets := fun _ => [⟨0, 0⟩]
  externalRadius := 0
  movement := ⟨"stopped", none, ⟨0, 0, 0⟩⟩

/-- The C7 other token. -/
def c7TokenT : TokenDoc where
  id := "tokT7"
  actor := some c7OtherActor
  disposition := 1
  x := 0
  y := 0
  elevation := 0
  width := 1
  hidden := false
  center := ⟨0, 0⟩
  centerPoint := fun _ => ⟨0, 0⟩
  occupiedOffsets := fun _ => [⟨0, 0⟩]
  externalRadius := 0
  movement := ⟨"stopped", none, ⟨0, 0, 0⟩⟩

/-- The C7 scene. -/
def c7Scene : Scene where
  grid := c1Grid
  tokens := [c7TokenS, c7TokenT]
  testCollision := fun _ _ _ => false
  scriptCompile := fun _ => none
  scriptEval := fun _ _ _ _ _ => .ok true
  rollTotal := fun _ _ => 0
  resolveEffect := fun u => if u == "Effect.E" then some c7SourceEffect else none
  quadtree := fun _ => [c7TokenS, c7TokenT]

/-- C7 counterexample: the cleanup is not scene-wide — the apply-to-self
clone held by the emitting actor itself carries the deleted origin and
the aura-derived flag, yet its uuid is not among the deletions issued by
the handler (the collection filters out the source actor). -/
theorem selfClone_not_removed_counterexample :
    (c7SelfClone ∈ c7SourceActor.appliedEffects ∧ c7SelfClone.fromAura = true ∧
      c7SelfClone.origin = some c7SourceEffect.uuid) ∧
    c7SelfClone.uuid ∉ (removeAndReplaceAuras c7Scene
      (collectAppliedOfOrigin c7Scene c7SourceActor c7SourceEffect)).1 := by
  refine ⟨⟨by simp [c7SourceActor], rfl, rfl⟩, ?_⟩
  have hd : (removeAndReplaceAuras c7Scene
      (collectAppliedOfOrigin c7Scene c7SourceActor c7SourceEffect)).1
      = (collectAppliedOfOrigin c7Scene c7SourceActor c7SourceEffect).map
        (fun e => e.uuid) := rfl
  rw [hd]
  have hc : collectAppliedOfOrigin c7Scene c7SourceActor c7SourceEffect
      = [c7OtherClone] := by
    norm_num [collectAppliedOfOrigin, List.filter, List.flatMap, c7Scene, c7TokenS,
      c7TokenT, c7SourceActor, c7OtherActor, c7SourceEffect, c7SelfClone, c7OtherClone,
      c7Orphan]
    decide
  rw [hc]
  decide

/-- C7 witness: the other actor's clone is deleted by the handler, and
the orphaned applied effect is queued by the safety net of its
holder. -/
theorem sourceInvalidation_cleanup_witness :
    c7OtherClone.uuid ∈ (removeAndReplaceAuras c7Scene
      (collectAppliedOfOrigin c7Scene c7SourceActor c7SourceEffect)).1 ∧
    c7Orphan ∈ (getChangingSceneAurasCore c7Scene c7TokenT c7OtherActor).1 := by
  have h := sourceInvalidation_cleanup c7Scene c7SourceActor c7SourceEffect
  constructor
  · exact h.1 c7TokenT (by simp [c7Scene]) c7OtherActor rfl (by decide) c7OtherClone
      (by simp [c7OtherActor]) rfl rfl
  · exact h.2 c7TokenT c7OtherActor c7Orphan (by simp [c7OtherActor]) rfl
      (Or.inl (by decide))

/-- A mutation request issued through the Mutation Authority (an apply
or delete query) with an opaque payload. -/
structure Mutation where
  kind : String
  payload : List String
deriving DecidableEq, Repr

/-- Client-session state relevant to the no-authority path: whether an
active GM is available and whether the one-time warning (the
module-level `seenWarning` flag) has been shown. -/
structure Session where
  hasActiveGM : Bool
  seenWarning : Bool
deriving DecidableEq, Repr

/-- One lifecycle trigger together with the guard data its handler
inspects before the authority check, and the mutations its body would
issue when an authority is available. -/
inductive LifecycleEvent where
  | effectCreatedOrDeleted (modifiesActor targetIsActor fromAura initiator : Bool)
      (body : List Mutation)
  | tokenCreated (initiator hasActor : Bool) (body : List Mutation)
  | tokenDeleted (initiator sceneActive hasActor : Bool) (body : List Mutation)
  | tokenUpdated (initiator hasActor : Bool) (body : List Mutation)
  | tokenMoved (initiator hasActor : Bool) (body : List Mutation)
  | effectUpdated (initiator isAura relevantUpdate sceneActive hasToken : Bool)
      (body : List Mutation)
  | effectDeleted (initiator isAura sceneActive hasActor : Bool) (body : List Mutation)
deriving DecidableEq, Repr

/-- The shared no-authority tail of every handler: surface the warning
unless already seen this session, set the flag, and skip. -/
def noGMGuard (s : Session) : Session × List Mutation × List String :=
  if s.seenWarning then (s, [], [])
  else ({ s with seenWarning := true }, [], ["AURAEFFECTS.NoActiveGM"])

/-- Run one lifecycle handler from a session state, replaying the guard
order of each handler in auras.mjs: an available authority lets the
abstract body run; without one nothing is mutated and the one-time
warning may be surfaced. -/
def runEvent (s : Session) : LifecycleEvent → Session × List Mutation × List String
  | .effectCreatedOrDeleted modifiesActor targetIsActor fromAura initiator body =>
    if !modifiesActor || !targetIsActor then (s, [], [])
    else if fromAura then (s, [], [])
    else if !initiator then (s, [], [])
    else if s.hasActiveGM then (s, body, [])
    else noGMGuard s
  | .tokenCreated initiator hasActor body =>
    if !initiator then (s, [], [])
    else if !s.hasActiveGM then noGMGuard s
    else if !hasActor then (s, [], [])
    else (s, body, [])
  | .tokenDeleted initiator sceneActive hasActor body =>
    if !initiator then (s, [], [])
    else if !sceneActive then (s, [], [])
    else if !hasActor then (s, [], [])
    else if s.hasActiveGM then (s, body, []) else noGMGuard s
  | .tokenUpdated initiator hasActor body =>
    if !initiator then (s, [], [])
    else if !s.hasActiveGM then noGMGuard s
    else if !hasActor then (s, [], [])
    else (s, body, [])
  | .tokenMoved initiator hasActor body =>
    if !initiator then (s, [], [])
    else if !s.hasActiveGM then noGMGuard s
    else if !hasActor then (s, [], [])
    else (s, body, [])
  | .effectUpdated initiator isAura relevantUpdate sceneActive hasToken body =>
    if !initiator then (s, [], [])
    else if !isAura then (s, [], [])
    else if !relevantUpdate then (s, [], [])
    else if !sceneActive then (s, [], [])
    else if !hasToken then (s, [], [])
    else if s.hasActiveGM then (s, body, []) else noGMGuard s
  | .effectDeleted initiator isAura sceneActive hasActor body =>
    if !initiator then (s, [], [])
    else if !isAura then (s, [], [])
    else if !sceneActive then (s, [], [])
    else if !hasActor then (s, [], [])
    else if s.hasActiveGM then (s, body, []) else noGMGuard s

/-- Run a sequence of lifecycle events, threading the session state and
concatenating the issued mutations and surfaced warnings. -/
def runEvents (s : Session) : List LifecycleEvent → Session × List Mutation × List String
  | [] => (s, [], [])
  | e :: rest =>
    let r := runEvent s e
    let r2 := runEvents r.1 rest
    (r2.1, r.2.1 ++ r2.2.1, r.2.2 ++ r2.2.2)

/-- Single-event no-authority facts: no mutation, authority state
unchanged, and the warning behaviour of the once-per-session flag. -/
theorem runEvent_noGM (s : Session) (h : s.hasActiveGM = false) (e : LifecycleEvent) :
    (runEvent s e).2.1 = [] ∧ (runEvent s e).1.hasActiveGM = false ∧
    (s.seenWarning = true → (runEvent s e).2.2 = [] ∧ (runEvent s e).1.seenWarning = true) ∧
    (s.seenWarning = false →
      ((runEvent s e).2.2 = [] ∧ (runEvent s e).1.seenWarning = false) ∨
      ((runEvent s e).2.2 = ["AURAEFFECTS.NoActiveGM"] ∧
        (runEvent s e).1.seenWarning = true)) := by
  cases e <;> simp only [runEvent, noGMGuard, h] <;> split_ifs <;> simp_all

/-- C9: with no Mutation Authority available, any sequence of lifecycle
handler invocations issues no mutation at all, and the user-visible
warning is surfaced at most once per session across all handlers and
events (never again once the session flag is set). -/
theorem noAuthority_noMutation (s : Session) (evs : List LifecycleEvent)
    (h : s.hasActiveGM = false) :
    (runEvents s evs).2.1 = [] ∧ (runEvents s evs).2.2.length ≤ 1 ∧
    (s.seenWarning = true → (runEvents s evs).2.2 = []) := by
  induction evs generalizing s with
  | nil => simp [runEvents]
  | cons e rest ih =>
    obtain ⟨hmut, hgm, hseen, hunseen⟩ := runEvent_noGM s h e
    obtain ⟨ihm, ihl, ihw⟩ := ih (runEvent s e).1 hgm
    simp only [runEvents]
    refine ⟨?_, ?_, ?_⟩
    · rw [hmut, ihm]
      rfl
    · by_cases hw : s.seenWarning = true
      · obtain ⟨hw1, hs1⟩ := hseen hw
        rw [hw1, ihw hs1]
        simp
      · rw [Bool.not_eq_true] at hw
        rcases hunseen hw with ⟨hw1, _⟩ | ⟨hw1, hs1⟩
        · rw [hw1]
          simpa using ihl
        · rw [hw1, ihw hs1]
          simp
    · intro hw
      obtain ⟨hw1, hs1⟩ := hseen hw
      rw [hw1, ihw hs1]
      simp

/-- C9 witness: a concrete no-authority session running a token
creation and an effect deletion issues no mutation and at most one
warning. -/
theorem noAuthority_noMutation_witness :
    (runEvents ⟨false, false⟩
      [LifecycleEvent.tokenCreated true true [⟨"auraeffects.applyAuraEffects", ["a"]⟩],
       LifecycleEvent.effectDeleted true true true true
         [⟨"auraeffects.deleteEffects", ["b"]⟩]]).2.1 = [] ∧
    (runEvents ⟨false, false⟩
      [LifecycleEvent.tokenCreated true true [⟨"auraeffects.applyAuraEffects", ["a"]⟩],
       LifecycleEvent.effectDeleted true true true true
         [⟨"auraeffects.deleteEffects", ["b"]⟩]]).2.2.length ≤ 1 :=
  ⟨(noAuthority_noMutation ⟨false, false⟩ _ rfl).1,
   (noAuthority_noMutation ⟨false, false⟩ _ rfl).2.1⟩

/-- C2 counterexample: applying the scene delta output on the C1 world
and re-running does not produce two empty lists — the toAdd list is
reproduced because the in-range passing source effect is listed
regardless of the freshly applied clone. -/
theorem sceneDelta_rerun_counterexample :
    getChangingSceneAurasCore c1Scene c1TokenT c1TargetActor = ([], [c1SourceEffect]) ∧
    getChangingSceneAurasCore (sceneDeltaApplied c1Scene c1TokenT c1TargetActor).1
      (sceneDeltaApplied c1Scene c1TokenT c1TargetActor).2.1
      (sceneDeltaApplied c1Scene c1TokenT c1TargetActor).2.2
      = ([], [c1SourceEffect]) ∧
    (([], [c1SourceEffect]) : List Effect × List Effect) ≠ ([], []) := by
  refine ⟨?_, ?_, by simp⟩
  · norm_num [getChangingSceneAurasCore, gcsaStep, staleApplied, getAllAuraEffects, auraFails,
      getTokenToTokenDistance, getDistance, executeScriptB, jsTrim, actorIs, EDist.qlt,
      EDist.minList, EDist.min, EDist.sub, originElevation, List.partition_eq_filter_filter,
      c1Scene, c1Grid, c1TokenS, c1TokenT, c1SourceActor, c1TargetActor, c1SourceEffect,
      c1AppliedClone, List.foldl, List.filter, List.flatMap, List.find?]
    decide
  · norm_num [sceneDeltaApplied, deltaScene, deltaToken, deltaActor, updateTargetActor,
      applyDeltaToActor, cloneEffect, getChangingSceneAurasCore, gcsaStep, staleApplied,
      getAllAuraEffects, auraFails, getTokenToTokenDistance, getDistance, executeScriptB,
      jsTrim, actorIs, EDist.qlt, EDist.minList, EDist.min, EDist.sub, originElevation,
      List.partition_eq_filter_filter, c1Scene, c1Grid, c1TokenS, c1TokenT, c1SourceActor,
      c1TargetActor, c1SourceEffect, c1AppliedClone, List.foldl, List.filter, List.flatMap,
      List.find?, List.map]
    decide

/-- C2 witness for the amended theorem: on the C1 world all hypotheses
hold concretely and the re-run after application yields an empty
toRemove and the unchanged toAdd. -/
theorem sceneDelta_rerun_witness :
    getChangingSceneAurasCore (sceneDeltaApplied c1Scene c1TokenT c1TargetActor).1
      (sceneDeltaApplied c1Scene c1TokenT c1TargetActor).2.1
      (sceneDeltaApplied c1Scene c1TokenT c1TargetActor).2.2
    = ([], (getChangingSceneAurasCore c1Scene c1TokenT c1TargetActor).2) :=
  sceneDelta_rerun c1Scene c1TokenT c1TargetActor rfl (by decide) (by decide) (by decide)
    (fun _ _ _ => rfl)

/-- C10 witness: on the concrete C8 scene the candidate token is within
30 units of the source, `getNearbyTokens` returns it, it carries an
actor, and the candidate-actor dereference cannot be the failure. -/
theorem getNearbyTokens_actors_present_witness :
    c8CandidateToken ∈ getNearbyTokens c8Scene c8SourceToken 30 none 0 [] ∧
    (∃ a, c8CandidateToken.actor = some a) ∧
    executeScript c8Scene c8SourceToken c8CandidateToken c8BrokenEffect
      ≠ .typeError .candidateActorMissing := by
  have hmem : c8CandidateToken ∈ getNearbyTokens c8Scene c8SourceToken 30 none 0 [] := by
    simp only [getNearbyTokens, getGenerallyWithin, getTokenToTokenDistance, getDistance,
      originElevation, c8Scene, c5Grid, c8SourceToken, c8CandidateToken, EDist.minList,
      EDist.min, EDist.sub, EDist.leq, List.flatMap, List.map, List.foldr, List.flatten,
      List.filter, List.any]
    norm_num [c8SourceActor, c8CandidateActor]
  have h := getNearbyTokens_actors_present c8Scene c8SourceToken 30 none 0 []
    c8CandidateToken hmem
  exact ⟨hmem, h.1, h.2 c8BrokenEffect⟩

end AuraEffects
